import Mathlib

/-!
Verification of the ChoomLang core protocol (shallow embedding).

This file embeds the ChoomLang DSL codec (`choomlang/dsl.py`), the
operation registry (`choomlang/registry.py`), the protocol helpers
(`choomlang/protocol.py`) and the structured-relay decision logic
(`choomlang/relay.py`) as executable Lean definitions, and proves the
specification's invariants about them.

Modelling conventions:
* Python strings are modelled as `String` / `List Char`; `str.isspace`
  is modelled over the ASCII whitespace characters (the unicode
  whitespace code points beyond ASCII are not modelled, no claim
  depends on them).
* Python `int` is `Int` (arbitrary precision in both).
* Python `float` parameter values are kept as their matched decimal
  literal (constructor `Value.vFloat`).  Python would re-format such a
  value through `str(float(lit))`; binary floating point is not
  modelled and no theorem below relies on the `vFloat` case.
* Fallible Python code (raising `DSLParseError` / `RelayError` /
  `ValueError`) is modelled with `Except`, carrying the exact message
  strings built by the source.
-/

namespace ChoomLang

/-- Parameter values produced by `_coerce_value`:
Python `str | bool | int | float`. -/
inductive Value where
  | vStr (s : String)
  | vBool (b : Bool)
  | vInt (n : Int)
  | vFloat (lit : String)
deriving DecidableEq, Repr

/-- ASCII whitespace, the model of Python `str.isspace` /
`str.strip` on the character sets used by the protocol. -/
def isSpaceChar (c : Char) : Bool :=
  c == ' ' || c == '\t' || c == '\n' || c == '\r' || c == '\x0b' || c == '\x0c'

/-- Decimal digit characters `0-9` (the regex class `[0-9]`). -/
def isDigitChar (c : Char) : Bool :=
  '0' ≤ c && c ≤ '9'

/-- Digit character for a value below ten (Python decimal rendering). -/
def digitChar (d : Nat) : Char :=
  if d = 0 then '0' else if d = 1 then '1' else if d = 2 then '2'
  else if d = 3 then '3' else if d = 4 then '4' else if d = 5 then '5'
  else if d = 6 then '6' else if d = 7 then '7' else if d = 8 then '8'
  else '9'

/-- Base-10 digits of `n`, least significant first, with explicit
fuel so that the definition evaluates by kernel reduction (shown equal
to Mathlib's `Nat.digits 10` below). -/
def natDigitsRev (fuel n : Nat) : List Nat :=
  match fuel with
  | 0 => []
  | fuel + 1 => if n = 0 then [] else (n % 10) :: natDigitsRev fuel (n / 10)

/-- Decimal rendering of a natural number, the model of Python
`str(n)` for `n ≥ 0`: most-significant digit first, no leading
zeros, `"0"` for zero. -/
def natReprL (n : Nat) : List Char :=
  if n = 0 then ['0'] else ((natDigitsRev (n + 1) n).reverse.map digitChar)

/-- Decimal rendering of an integer, the model of Python `str(i)`. -/
def intReprS (i : Int) : String :=
  if i < 0 then "-" ++ (natReprL i.natAbs).asString else (natReprL i.natAbs).asString

/-- Reading a digit string back, the model of Python `int(s)` on a
digit-only string. -/
def parseNatL (cs : List Char) : Nat :=
  cs.foldl (fun a c => 10 * a + (c.toNat - 48)) 0

/-! ### `choomlang/dsl.py`: alias table -/

/-- `ALIAS_TO_CANON` from `dsl.py`. -/
def ALIAS_TO_CANON : List (String × String) :=
  [("jack", "gen"), ("scan", "classify"), ("ghost", "summarize"),
   ("forge", "plan"), ("ping", "healthcheck"), ("call", "toolcall"),
   ("relay", "forward")]

/-- `canonicalize_op`: `ALIAS_TO_CANON.get(op, op)`. -/
def canonicalize_op (op : String) : String :=
  match ALIAS_TO_CANON.lookup op with
  | some v => v
  | none => op

/-! ### `choomlang/dsl.py`: tokenizer -/

/-- One step of the `_tokenize` character loop of `dsl.py`, with the
loop state made explicit: `inQ` is `in_quote`, `esc` is `escape`,
`cur` the pending token characters, `acc` the emitted tokens. -/
def tokLoop : List Char → Bool → Bool → List Char → List (List Char) →
    Except String (List (List Char))
  | [], inQ, _esc, cur, acc =>
      if inQ then .error "unterminated quote: missing closing '\x22'"
      else .ok (acc ++ (if cur = [] then [] else [cur]))
  | c :: cs, true, esc, cur, acc =>
      if esc then tokLoop cs true false (cur ++ [c]) acc
      else if c = '\\' then tokLoop cs true true (cur ++ [c]) acc
      else if c = '"' then tokLoop cs false false (cur ++ [c]) acc
      else tokLoop cs true false (cur ++ [c]) acc
  | c :: cs, false, _esc, cur, acc =>
      if isSpaceChar c then
        tokLoop cs false false [] (acc ++ (if cur = [] then [] else [cur]))
      else
        tokLoop cs (c == '"') false (cur ++ [c]) acc

/-- Python `str.strip` (both ends). -/
def stripChars (cs : List Char) : List Char :=
  ((cs.dropWhile isSpaceChar).reverse.dropWhile isSpaceChar).reverse

/-- `_tokenize` from `dsl.py`. -/
def _tokenize (line : List Char) : Except String (List (List Char)) :=
  let l := stripChars line
  if l = [] then .error "invalid header: empty input"
  else tokLoop l false false [] []

/-- `_strip_trailing_punctuation_token` from `dsl.py`. -/
def _strip_trailing_punctuation_token (toks : List (List Char)) :
    List (List Char) :=
  match toks.getLast? with
  | some t => if t = ['.'] ∨ t = [','] ∨ t = [';'] then toks.dropLast else toks
  | none => toks

/-! ### `choomlang/dsl.py`: header (target / count) -/

/-- The regex class `[A-Za-z_]` (first character of `HEADER_RE`). -/
def isNameStart (c : Char) : Bool := c.isAlpha || c == '_'

/-- The regex class `[A-Za-z0-9_-]` of `HEADER_RE`. -/
def isNameChar (c : Char) : Bool := c.isAlphanum || c == '_' || c == '-'

/-- Whether a token matches the `target` group `[A-Za-z_][A-Za-z0-9_-]*`. -/
def isNameChars : List Char → Bool
  | [] => false
  | c :: cs => isNameStart c && cs.all isNameChar

/-- `_parse_target_count` from `dsl.py`: match
`^(target)(?:\[(count)\])?$` with `target = [A-Za-z_][A-Za-z0-9_-]*`
and a non-empty bracket body free of `]`; the body must then be all
digits and denote a count `>= 1`.  Since the target class excludes
`[`, the regex match boundary is the first `[` of the token. -/
def _parse_target_count (tok : List Char) : Except String (List Char × Int) :=
  let pre := tok.takeWhile (fun c => c != '[')
  let post := tok.dropWhile (fun c => c != '[')
  match post with
  | [] =>
      if isNameChars tok then .ok (tok, 1)
      else .error ("invalid header: invalid target/count segment '" ++ tok.asString ++ "'")
  | _ :: rest =>
      if isNameChars pre ∧ rest.getLast? = some ']' ∧ rest.dropLast ≠ [] ∧
          ¬ (']' ∈ rest.dropLast) then
        let rawCount := rest.dropLast
        if rawCount.all isDigitChar then
          let n : Int := Int.ofNat (parseNatL rawCount)
          if n < 1 then .error ("bad count: expected >= 1, got " ++ intReprS n)
          else .ok (pre, n)
        else
          .error ("bad count: expected positive integer, got '" ++ rawCount.asString ++ "'")
      else .error ("invalid header: invalid target/count segment '" ++ tok.asString ++ "'")

/-! ### `choomlang/dsl.py`: value coercion -/

/-- `_unescape_quoted` from `dsl.py`: `\"` and `\\` collapse, any
other backslash is kept verbatim (a backslash before any other
character, or a trailing backslash, is copied as-is). -/
def _unescape_quoted : List Char → List Char
  | [] => []
  | c :: rest =>
      if c = '\\' then
        match rest with
        | d :: rest' =>
            if d = '"' ∨ d = '\\' then d :: _unescape_quoted rest'
            else c :: _unescape_quoted (d :: rest')
        | [] => [c]
      else c :: _unescape_quoted rest

/-- The regex `-?[0-9]+` (`fullmatch`). -/
def matchIntL : List Char → Bool
  | '-' :: ds => ds ≠ [] && ds.all isDigitChar
  | ds => ds ≠ [] && ds.all isDigitChar

/-- Python `int(raw)` for a string matching `-?[0-9]+`. -/
def intOfChars : List Char → Int
  | '-' :: ds => - (Int.ofNat (parseNatL ds))
  | ds => Int.ofNat (parseNatL ds)

/-- The regex `-?[0-9]+\.[0-9]+` (`fullmatch`). -/
def matchFloatL (cs : List Char) : Bool :=
  let body := match cs with | '-' :: rest => rest | rest => rest
  let pre := body.takeWhile isDigitChar
  let rest := body.drop pre.length
  pre ≠ [] && (match rest with
    | '.' :: frac => frac ≠ [] && frac.all isDigitChar
    | _ => false)

/-- `_coerce_value` from `dsl.py`, on the raw value characters. -/
def _coerce_value (raw : List Char) : Value :=
  if 2 ≤ raw.length ∧ raw.head? = some '"' ∧ raw.getLast? = some '"' then
    .vStr (_unescape_quoted ((raw.drop 1).dropLast)).asString
  else
    let lower := raw.map Char.toLower
    if lower = ['t', 'r', 'u', 'e'] then .vBool true
    else if lower = ['f', 'a', 'l', 's', 'e'] then .vBool false
    else if matchIntL raw then .vInt (intOfChars raw)
    else if matchFloatL raw then .vFloat raw.asString
    else .vStr raw.asString

/-! ### `choomlang/dsl.py`: parameter loop and records -/

/-- A structured record (`ParsedCommand` dataclass / its
`to_json_dict` payload form).  `params` is the model of the Python
dict: an association list in insertion order, whose keys are distinct
by construction of `insertParam`. -/
structure ParsedCommand where
  op : String
  target : String
  count : Int
  params : List (String × Value)
deriving DecidableEq, Repr

/-- Python dict assignment `params[key] = value`: replace in place if
the key exists, else append. -/
def insertParam (ps : List (String × Value)) (k : String) (v : Value) :
    List (String × Value) :=
  match ps with
  | [] => [(k, v)]
  | (k', v') :: rest =>
      if k' = k then (k', v) :: rest else (k', v') :: insertParam rest k v

/-- The `for token in tokens[2:]` loop of `parse_dsl`: each token is
split at its first `=` (Python `token.split("=", 1)`). -/
def parseParams : List (List Char) → List (String × Value) →
    Except String (List (String × Value))
  | [], acc => .ok acc
  | tok :: rest, acc =>
      if ¬ ('=' ∈ tok) then
        .error ("malformed kv: missing '=' in token '" ++ tok.asString ++ "'")
      else
        let k := tok.takeWhile (fun c => c != '=')
        let raw := (tok.dropWhile (fun c => c != '=')).tail
        if k = [] then
          .error ("malformed kv: empty key in token '" ++ tok.asString ++ "'")
        else if raw = [] then
          .error ("malformed kv: empty value for key '" ++ k.asString ++ "'")
        else parseParams rest (insertParam acc k.asString (_coerce_value raw))

/-- The record-building phase of `parse_dsl`: the `len < 2` guard,
header parse, and parameter loop over a ready token list. -/
def parseTokens (toks : List (List Char)) : Except String ParsedCommand :=
  match toks with
  | op :: hdr :: rest => do
      let (target, count) ← _parse_target_count hdr
      let params ← parseParams rest []
      .ok ⟨canonicalize_op op.asString, target.asString, count, params⟩
  | _ => .error "invalid header: expected '<op> <target>[count] ...'"

/-- `parse_dsl` from `dsl.py`. -/
def parse_dsl (line : String) (lenient : Bool := false) :
    Except String ParsedCommand := do
  let toks ← _tokenize line.toList
  parseTokens (if lenient then _strip_trailing_punctuation_token toks else toks)

/-! ### `choomlang/dsl.py`: serializer -/

/-- `_needs_quotes` from `dsl.py`. -/
def _needs_quotes (s : String) : Bool :=
  s.toList = [] || s.toList.any (fun c => isSpaceChar c || c == '"' || c == '=')

/-- One character of the escaping in `_serialize_value`
(`.replace("\\", "\\\\").replace('"', '\\"')`, applied characterwise:
the two sequential replaces never rewrite each other's output). -/
def escapeChar (c : Char) : List Char :=
  if c = '\\' then ['\\', '\\'] else if c = '"' then ['\\', '"'] else [c]

/-- Escape a whole string (see `escapeChar`). -/
def escapeL : List Char → List Char
  | [] => []
  | c :: cs => escapeChar c ++ escapeL cs

/-- `_serialize_value` from `dsl.py`.  The `vFloat` case carries the
decimal literal along (see the module comment; Python renders
`str(float(lit))`, which no theorem below relies on). -/
def _serialize_value : Value → String
  | .vBool b => if b then "true" else "false"
  | .vInt n => intReprS n
  | .vFloat lit => lit
  | .vStr s =>
      if _needs_quotes s then "\"" ++ (escapeL s.toList).asString ++ "\""
      else s

/-- Lexicographic code-point order on character lists: the order
Python uses to compare strings. -/
def lexLe : List Char → List Char → Bool
  | [], _ => true
  | _ :: _, [] => false
  | a :: as, b :: bs => if a = b then lexLe as bs else decide (a < b)

/-- Python string `<=` (code-point lexicographic). -/
def keyLe (a b : String) : Bool := lexLe a.toList b.toList

/-- Key-ordered insertion used to model Python `sorted(params)`
(stable sort by code-point order on the keys). -/
def insertSorted (x : String × Value) :
    List (String × Value) → List (String × Value)
  | [] => [x]
  | y :: ys => if keyLe x.1 y.1 then x :: y :: ys else y :: insertSorted x ys

/-- Model of Python `sorted(params)` (insertion sort by key). -/
def sortParams : List (String × Value) → List (String × Value)
  | [] => []
  | x :: xs => insertSorted x (sortParams xs)

/-- Python `" ".join(parts)`. -/
def joinSpace : List String → String
  | [] => ""
  | [p] => p
  | p :: ps => p ++ " " ++ joinSpace ps

/-- The second element of `parts` in `serialize_dsl`:
`target if count == 1 else f"{target}[{count}]"`. -/
def emitHeader (target : String) (count : Int) : String :=
  if count = 1 then target else target ++ "[" ++ intReprS count ++ "]"

/-- A `f"{key}={_serialize_value(params[key])}"` part of
`serialize_dsl`. -/
def emitParam (kv : String × Value) : String :=
  kv.1 ++ "=" ++ _serialize_value kv.2

/-- `serialize_dsl` from `dsl.py` (on a record; the dict branch of the
source carries the same four fields). -/
def serialize_dsl (p : ParsedCommand) : Except String String :=
  let op := canonicalize_op p.op
  if p.count < 1 then
    .error ("bad count: expected >= 1, got " ++ intReprS p.count)
  else
    .ok (joinSpace ([op, emitHeader p.target p.count] ++
      (sortParams p.params).map emitParam))

/-- `format_dsl` from `dsl.py`: `serialize_dsl(parse_dsl(line, lenient))`. -/
def format_dsl (line : String) (lenient : Bool := false) :
    Except String String :=
  parse_dsl line lenient >>= serialize_dsl

/-! ## Tokenizer inversion

`scanSt` runs the quote/escape automaton of `_tokenize` over a
character list from a given `(in_quote, escape)` state and returns the
end state, or `none` if a whitespace separator is reached outside
quotes.  A "good token" is a non-empty character list that the
automaton scans from the initial state back to the initial state
without hitting a separator; the serializer only emits good tokens,
and `_tokenize` recovers exactly the emitted token list from their
space-join. -/

def scanSt : List Char → Bool → Bool → Option (Bool × Bool)
  | [], inQ, esc => some (inQ, esc)
  | c :: cs, true, esc =>
      if esc then scanSt cs true false
      else if c = '\\' then scanSt cs true true
      else if c = '"' then scanSt cs false false
      else scanSt cs true false
  | c :: cs, false, _ =>
      if isSpaceChar c then none else scanSt cs (c == '"') false

/-- A token the serializer may emit: non-empty, and scanned by the
tokenizer automaton from state `(false, false)` back to
`(false, false)` with no separator in between. -/
def GoodTok (t : List Char) : Prop :=
  t ≠ [] ∧ scanSt t false false = some (false, false)

/-- Character-level form of `joinSpace` (Python `" ".join`). -/
def joinChars : List (List Char) → List Char
  | [] => []
  | [t] => t
  | t :: ts => t ++ ' ' :: joinChars ts

theorem joinSpace_toList : ∀ ps : List String,
    (joinSpace ps).toList = joinChars (ps.map String.toList)
  | [] => rfl
  | [_] => rfl
  | p :: p' :: ps => by
      have ih := joinSpace_toList (p' :: ps)
      rw [show joinSpace (p :: p' :: ps) = p ++ " " ++ joinSpace (p' :: ps) from rfl]
      rw [show (p ++ " " ++ joinSpace (p' :: ps)).toList
            = (p.toList ++ [' ']) ++ (joinSpace (p' :: ps)).toList from rfl]
      rw [ih]
      simp [joinChars, List.append_assoc]

theorem scanSt_append (xs ys : List Char) : ∀ inQ esc : Bool,
    scanSt (xs ++ ys) inQ esc =
      match scanSt xs inQ esc with
      | some (q, e) => scanSt ys q e
      | none => none := by
  induction xs with
  | nil => intro inQ esc; rfl
  | cons c cs ih =>
    intro inQ esc
    cases inQ with
    | true =>
      by_cases he : esc
      · simpa [scanSt, he] using ih true false
      · by_cases hb : c = '\\'
        · simpa [scanSt, he, hb] using ih true true
        · by_cases hq : c = '"'
          · simpa [scanSt, he, hb, hq] using ih false false
          · simpa [scanSt, he, hb, hq] using ih true false
    | false =>
      by_cases hs : isSpaceChar c
      · simp [scanSt, hs]
      · simpa [scanSt, hs] using ih (c == '"') false

theorem tokLoop_shift : ∀ (xs rest : List Char) (inQ esc q e : Bool)
    (cur : List Char) (acc : List (List Char)),
    scanSt xs inQ esc = some (q, e) →
    tokLoop (xs ++ rest) inQ esc cur acc = tokLoop rest q e (cur ++ xs) acc := by
  intro xs
  induction xs with
  | nil =>
    intro rest inQ esc q e cur acc h
    simp only [scanSt, Option.some_inj, Prod.mk.injEq] at h
    simp [h.1, h.2]
  | cons c cs ih =>
    intro rest inQ esc q e cur acc h
    cases inQ with
    | true =>
      by_cases he : esc
      · simp only [scanSt, he, if_true] at h
        simpa [tokLoop, he, List.append_assoc] using ih rest true false q e (cur ++ [c]) acc h
      · by_cases hb : c = '\\'
        · simp only [scanSt, he, hb, if_false, if_true] at h
          simpa [tokLoop, he, hb, List.append_assoc] using ih rest true true q e (cur ++ [c]) acc h
        · by_cases hq : c = '"'
          · simp only [scanSt, he, hb, hq, if_false, if_true] at h
            simpa [tokLoop, he, hb, hq, List.append_assoc] using
              ih rest false false q e (cur ++ [c]) acc h
          · simp only [scanSt, he, hb, hq, if_false] at h
            simpa [tokLoop, he, hb, hq, List.append_assoc] using
              ih rest true false q e (cur ++ [c]) acc h
    | false =>
      by_cases hs : isSpaceChar c
      · simp [scanSt, hs] at h
      · simp only [scanSt, hs, if_false] at h
        simpa [tokLoop, hs, List.append_assoc] using
          ih rest (c == '"') false q e (cur ++ [c]) acc h

theorem tokLoop_join : ∀ (toks : List (List Char)) (acc : List (List Char)),
    (∀ t ∈ toks, GoodTok t) →
    tokLoop (joinChars toks) false false [] acc = .ok (acc ++ toks)
  | [], acc, _ => by simp [joinChars, tokLoop]
  | [t], acc, h => by
      obtain ⟨hne, hscan⟩ := h t (by simp)
      have : joinChars [t] = t ++ [] := by simp [joinChars]
      rw [this, tokLoop_shift t [] false false false false [] acc hscan]
      simp [tokLoop, hne]
  | t :: t' :: ts, acc, h => by
      obtain ⟨hne, hscan⟩ := h t (by simp)
      have hrest : ∀ u ∈ t' :: ts, GoodTok u := fun u hu => h u (by simp [hu])
      have : joinChars (t :: t' :: ts) = t ++ ' ' :: joinChars (t' :: ts) := rfl
      rw [this, tokLoop_shift t (' ' :: joinChars (t' :: ts)) false false false false [] acc hscan]
      have hsp : isSpaceChar ' ' = true := rfl
      simp only [tokLoop, hsp, if_true, List.nil_append, hne, if_false]
      rw [tokLoop_join (t' :: ts) (acc ++ [t]) hrest]
      simp

/-- The automaton never accepts a leading separator. -/
theorem scanSt_head_not_space {c : Char} {cs : List Char} {e : Bool} {st : Bool × Bool}
    (h : scanSt (c :: cs) false e = some st) : isSpaceChar c = false := by
  by_cases hs : isSpaceChar c
  · simp [scanSt, hs] at h
  · simpa using hs

/-- A scan that ends outside quotes does not end on a separator. -/
theorem scanSt_last_not_space : ∀ (cs : List Char) (inQ esc e : Bool) (c : Char),
    scanSt cs inQ esc = some (false, e) → cs.getLast? = some c →
    isSpaceChar c = false
  | [], _, _, _, _, _, hl => by simp at hl
  | [c0], inQ, esc, e, c, h, hl => by
      have hc : c0 = c := by simpa using hl
      rw [← hc]
      cases inQ with
      | true =>
        by_cases he : esc
        · simp [scanSt, he] at h
        · by_cases hb : c0 = '\\'
          · simp [scanSt, he, hb] at h
          · by_cases hq : c0 = '"'
            · rw [hq]; rfl
            · simp [scanSt, he, hb, hq] at h
      | false =>
        by_cases hs : isSpaceChar c0
        · simp [scanSt, hs] at h
        · simpa using hs
  | c0 :: c1 :: cs, inQ, esc, e, c, h, hl => by
      have hl' : (c1 :: cs).getLast? = some c := by
        simpa [List.getLast?_cons_cons] using hl
      cases inQ with
      | true =>
        by_cases he : esc
        · simp only [scanSt, he, if_true] at h
          exact scanSt_last_not_space (c1 :: cs) true false e c h hl'
        · by_cases hb : c0 = '\\'
          · simp only [scanSt, he, hb, if_false, if_true] at h
            exact scanSt_last_not_space (c1 :: cs) true true e c h hl'
          · by_cases hq : c0 = '"'
            · simp only [scanSt, he, hb, hq, if_false, if_true] at h
              exact scanSt_last_not_space (c1 :: cs) false false e c h hl'
            · simp only [scanSt, he, hb, hq, if_false] at h
              exact scanSt_last_not_space (c1 :: cs) true false e c h hl'
      | false =>
        by_cases hs : isSpaceChar c0
        · simp [scanSt, hs] at h
        · simp only [scanSt, hs, if_false] at h
          exact scanSt_last_not_space (c1 :: cs) (c0 == '"') false e c h hl'

theorem joinChars_ne_nil : ∀ (t : List Char) (ts : List (List Char)),
    t ≠ [] → joinChars (t :: ts) ≠ []
  | t, [], h => by simpa [joinChars] using h
  | _, _ :: _, _ => by simp [joinChars]

theorem joinChars_head? : ∀ (t : List Char) (ts : List (List Char)),
    t ≠ [] → (joinChars (t :: ts)).head? = t.head?
  | _, [], _ => rfl
  | t, t' :: ts, h => by
      cases t with
      | nil => exact absurd rfl h
      | cons c cs => rfl

theorem joinChars_getLast? : ∀ (ts : List (List Char)) (t u : List Char),
    (∀ v ∈ t :: ts, v ≠ []) → (t :: ts).getLast? = some u →
    (joinChars (t :: ts)).getLast? = u.getLast?
  | [], t, u, _, hl => by
      have : t = u := by simpa using hl
      simp [joinChars, this]
  | t' :: ts, t, u, hv, hl => by
      have hl' : (t' :: ts).getLast? = some u := by
        simpa [List.getLast?_cons_cons] using hl
      have ih := joinChars_getLast? ts t' u (fun v hv' => hv v (by simp [hv'])) hl'
      have hne : ' ' :: joinChars (t' :: ts) ≠ [] := by simp
      rw [show joinChars (t :: t' :: ts) = t ++ ' ' :: joinChars (t' :: ts) from rfl]
      rw [List.getLast?_append_of_ne_nil t hne]
      rw [show (' ' :: joinChars (t' :: ts) : List Char) = [' '] ++ joinChars (t' :: ts) from rfl]
      rw [List.getLast?_append_of_ne_nil [' ']
        (joinChars_ne_nil t' ts (hv t' (by simp)))]
      exact ih

theorem stripChars_eq_self {l : List Char}
    (h1 : ∀ c, l.head? = some c → isSpaceChar c = false)
    (h2 : ∀ c, l.getLast? = some c → isSpaceChar c = false) :
    stripChars l = l := by
  unfold stripChars
  have hd : l.dropWhile isSpaceChar = l := by
    cases l with
    | nil => rfl
    | cons c cs => simp [List.dropWhile_cons, h1 c rfl]
  rw [hd]
  have hr : l.reverse.dropWhile isSpaceChar = l.reverse := by
    cases hrev : l.reverse with
    | nil => rfl
    | cons c cs =>
        have : l.getLast? = some c := by
          rw [← List.head?_reverse, hrev]; rfl
        simp [List.dropWhile_cons, h2 c this]
  rw [hr, List.reverse_reverse]

/-- `_tokenize` inverts `joinChars` on a non-empty list of good
tokens. -/
theorem _tokenize_join (toks : List (List Char)) (hne : toks ≠ [])
    (h : ∀ t ∈ toks, GoodTok t) :
    _tokenize (joinChars toks) = .ok toks := by
  obtain ⟨t, ts, rfl⟩ : ∃ t ts, toks = t :: ts := by
    cases toks with
    | nil => exact absurd rfl hne
    | cons t ts => exact ⟨t, ts, rfl⟩
  obtain ⟨htne, htscan⟩ := h t (by simp)
  have hstrip : stripChars (joinChars (t :: ts)) = joinChars (t :: ts) := by
    apply stripChars_eq_self
    · intro c hc
      rw [joinChars_head? t ts htne] at hc
      cases t with
      | nil => exact absurd rfl htne
      | cons c0 cs =>
          have : c0 = c := by simpa using hc
          rw [← this]
          exact scanSt_head_not_space htscan
    · intro c hc
      obtain ⟨u, hu⟩ : ∃ u, (t :: ts).getLast? = some u := by
        rw [List.getLast?_eq_getLast _ (by simp)]; exact ⟨_, rfl⟩
      have humem : u ∈ t :: ts := by
        have := List.getLast?_eq_getLast (t :: ts) (by simp)
        rw [this] at hu
        have := List.getLast_mem (l := t :: ts) (by simp)
        simp only [← Option.some_inj.mp hu] at this ⊢
        exact this
      obtain ⟨hune, huscan⟩ := h u humem
      rw [joinChars_getLast? ts t u (fun v hv => (h v hv).1) hu] at hc
      exact scanSt_last_not_space u false false false c huscan hc
  unfold _tokenize
  simp only [hstrip]
  rw [if_neg (joinChars_ne_nil t ts htne)]
  simpa using tokLoop_join (t :: ts) [] h

/-! ## Good tokens emitted by the serializer -/

theorem scanSt_plain : ∀ cs : List Char,
    (∀ c ∈ cs, isSpaceChar c = false ∧ c ≠ '"') →
    scanSt cs false false = some (false, false)
  | [], _ => rfl
  | c :: cs, h => by
      obtain ⟨hs, hq⟩ := h c (by simp)
      have : (c == '"') = false := by simpa using hq
      simp only [scanSt, hs, if_false, this]
      exact scanSt_plain cs (fun c' hc' => h c' (by simp [hc']))

theorem scanSt_escapeL : ∀ s : List Char, scanSt (escapeL s) true false = some (true, false)
  | [] => rfl
  | c :: cs => by
      by_cases hb : c = '\\'
      · simp only [escapeL, escapeChar, hb, if_true]
        show scanSt ('\\' :: '\\' :: escapeL cs) true false = _
        simp only [scanSt, if_true, if_false]
        exact scanSt_escapeL cs
      · by_cases hq : c = '"'
        · simp only [escapeL, escapeChar, hb, hq, if_false, if_true]
          show scanSt ('\\' :: '"' :: escapeL cs) true false = _
          simp only [scanSt, if_true, if_false]
          exact scanSt_escapeL cs
        · simp only [escapeL, escapeChar, hb, hq, if_false]
          show scanSt (c :: escapeL cs) true false = _
          simp only [scanSt, hb, hq, if_false]
          exact scanSt_escapeL cs

theorem goodTok_quoted (s : List Char) : GoodTok ('"' :: (escapeL s ++ ['"'])) := by
  refine ⟨by simp, ?_⟩
  have h1 : scanSt ('"' :: (escapeL s ++ ['"'])) false false
      = scanSt (escapeL s ++ ['"']) true false := by
    simp [scanSt, isSpaceChar]
  rw [h1, scanSt_append (escapeL s) ['"'] true false, scanSt_escapeL s]
  rfl

theorem goodTok_plain (cs : List Char) (hne : cs ≠ [])
    (h : ∀ c ∈ cs, isSpaceChar c = false ∧ c ≠ '"') : GoodTok cs :=
  ⟨hne, scanSt_plain cs h⟩

/-! ## Decimal rendering round-trip -/

theorem digitChar_facts {d : Nat} (h : d < 10) :
    isSpaceChar (digitChar d) = false ∧ digitChar d ≠ '"' ∧ digitChar d ≠ '=' ∧
    isDigitChar (digitChar d) = true ∧ digitChar d ≠ '[' ∧ digitChar d ≠ ']' ∧
    (digitChar d).toNat - 48 = d := by
  interval_cases d <;>
    exact ⟨rfl, by decide, by decide, rfl, by decide, by decide, rfl⟩

theorem natDigitsRev_eq : ∀ (fuel n : Nat), n < fuel →
    natDigitsRev fuel n = Nat.digits 10 n
  | 0, _, h => absurd h (Nat.not_lt_zero _)
  | fuel + 1, n, h => by
      by_cases hn : n = 0
      · simp [natDigitsRev, hn]
      · rw [natDigitsRev, if_neg hn,
          natDigitsRev_eq fuel (n / 10) (by
            have hdiv : n / 10 < n :=
              Nat.div_lt_self (Nat.pos_of_ne_zero hn) (by decide)
            omega),
          Nat.digits_def' (by omega : 1 < 10) (Nat.pos_of_ne_zero hn)]

theorem natReprL_eq_digits (n : Nat) :
    natReprL n = if n = 0 then ['0'] else ((Nat.digits 10 n).reverse.map digitChar) := by
  unfold natReprL
  rw [natDigitsRev_eq (n + 1) n (by omega)]

theorem natReprL_mem {n : Nat} : ∀ c ∈ natReprL n, ∃ d, d < 10 ∧ c = digitChar d := by
  intro c hc
  rw [natReprL_eq_digits] at hc
  by_cases h : n = 0
  · rw [if_pos h] at hc
    exact ⟨0, by omega, by simpa using hc⟩
  · rw [if_neg h] at hc
    obtain ⟨d, hd, rfl⟩ := List.mem_map.mp hc
    have : d ∈ Nat.digits 10 n := List.mem_reverse.mp hd
    exact ⟨d, Nat.digits_lt_base (by omega) this, rfl⟩

theorem natReprL_ne_nil (n : Nat) : natReprL n ≠ [] := by
  rw [natReprL_eq_digits]
  by_cases h : n = 0
  · simp [h]
  · rw [if_neg h]
    simp [Nat.digits_ne_nil_iff_ne_zero.mpr h]

theorem parseNatL_append_digit (xs : List Char) (c : Char) :
    parseNatL (xs ++ [c]) = 10 * parseNatL xs + (c.toNat - 48) := by
  simp [parseNatL, List.foldl_append]

theorem parseNat_render : ∀ l : List Nat, (∀ d ∈ l, d < 10) →
    parseNatL (l.reverse.map digitChar) = Nat.ofDigits 10 l
  | [], _ => by simp [parseNatL, Nat.ofDigits_nil]
  | d :: ds, h => by
      have hd := h d (by simp)
      have ih := parseNat_render ds (fun x hx => h x (by simp [hx]))
      rw [show (d :: ds).reverse = ds.reverse ++ [d] from by simp]
      rw [List.map_append,
        show List.map digitChar [d] = [digitChar d] from rfl,
        parseNatL_append_digit, ih,
        (digitChar_facts hd).2.2.2.2.2.2, Nat.ofDigits_cons]
      omega

theorem parseNatL_natReprL (n : Nat) : parseNatL (natReprL n) = n := by
  rw [natReprL_eq_digits]
  by_cases h : n = 0
  · simp [h, parseNatL]
  · rw [if_neg h, parseNat_render _ (fun d hd => Nat.digits_lt_base (by omega) hd),
      Nat.ofDigits_digits]

/-! ## Sorting of parameter keys -/

theorem lexLe_total : ∀ a b : List Char, lexLe a b = true ∨ lexLe b a = true
  | [], _ => Or.inl rfl
  | _ :: _, [] => Or.inr rfl
  | a :: as, b :: bs => by
      by_cases hab : a = b
      · rcases lexLe_total as bs with h | h
        · exact Or.inl (by simp [lexLe, hab, h])
        · exact Or.inr (by simp [lexLe, hab.symm, h])
      · rcases lt_or_gt_of_ne hab with h | h
        · exact Or.inl (by simp [lexLe, hab, h])
        · exact Or.inr (by
            have : ¬ b = a := fun he => hab he.symm
            simp [lexLe, this, h])

theorem keyLe_total (a b : String) : keyLe a b = true ∨ keyLe b a = true :=
  lexLe_total a.toList b.toList

/-- Keys appear in (non-strictly) ascending order. -/
def KeySorted : List (String × Value) → Prop :=
  List.Chain' (fun a b => keyLe a.1 b.1 = true)

theorem keySorted_insertSorted (x : String × Value) :
    ∀ {l : List (String × Value)}, KeySorted l → KeySorted (insertSorted x l)
  | [], _ => by simp [insertSorted, KeySorted]
  | y :: ys, h => by
      by_cases hle : keyLe x.1 y.1 = true
      · simp only [insertSorted, hle, if_true]
        exact List.chain'_cons.mpr ⟨hle, h⟩
      · simp only [insertSorted, hle, if_false]
        have hyx : keyLe y.1 x.1 = true := by
          rcases keyLe_total x.1 y.1 with h' | h'
          · exact absurd h' hle
          · exact h'
        have htail : KeySorted ys := (List.chain'_cons'.mp h).2
        have ih := keySorted_insertSorted x htail
        cases ys with
        | nil =>
          simp only [insertSorted]
          exact List.chain'_cons.mpr ⟨hyx, List.chain'_singleton x⟩
        | cons z zs =>
          by_cases hxz : keyLe x.1 z.1 = true
          · have : insertSorted x (z :: zs) = x :: z :: zs := by
              simp [insertSorted, hxz]
            rw [this] at ih ⊢
            exact List.chain'_cons.mpr ⟨hyx, ih⟩
          · have : insertSorted x (z :: zs) = z :: insertSorted x zs := by
              simp [insertSorted, hxz]
            rw [this] at ih ⊢
            have hyz : keyLe y.1 z.1 = true := (List.chain'_cons.mp h).1
            exact List.chain'_cons.mpr ⟨hyz, ih⟩

theorem keySorted_sortParams : ∀ l : List (String × Value), KeySorted (sortParams l)
  | [] => List.chain'_nil
  | x :: xs => keySorted_insertSorted x (keySorted_sortParams xs)

theorem sortParams_eq_of_sorted : ∀ {l : List (String × Value)},
    KeySorted l → sortParams l = l
  | [], _ => rfl
  | x :: xs, h => by
      have htail : KeySorted xs := (List.chain'_cons'.mp h).2
      show insertSorted x (sortParams xs) = x :: xs
      rw [sortParams_eq_of_sorted htail]
      cases xs with
      | nil => rfl
      | cons y ys =>
        have hxy : keyLe x.1 y.1 = true := (List.chain'_cons.mp h).1
        simp [insertSorted, hxy]

theorem sortParams_idem (l : List (String × Value)) :
    sortParams (sortParams l) = sortParams l :=
  sortParams_eq_of_sorted (keySorted_sortParams l)

theorem insertSorted_perm (x : String × Value) :
    ∀ l : List (String × Value), List.Perm (insertSorted x l) (x :: l)
  | [] => List.Perm.refl _
  | y :: ys => by
      by_cases hle : keyLe x.1 y.1 = true
      · simp [insertSorted, hle]
      · simp only [insertSorted, hle, if_false]
        exact List.Perm.trans (List.Perm.cons y (insertSorted_perm x ys))
          (List.Perm.swap x y ys)

theorem sortParams_perm : ∀ l : List (String × Value), List.Perm (sortParams l) l
  | [] => List.Perm.refl _
  | x :: xs =>
      List.Perm.trans (insertSorted_perm x (sortParams xs))
        (List.Perm.cons x (sortParams_perm xs))

theorem sortParams_mem {l : List (String × Value)} {kv : String × Value} :
    kv ∈ sortParams l ↔ kv ∈ l :=
  (sortParams_perm l).mem_iff

theorem sortParams_keys_nodup {l : List (String × Value)}
    (h : (l.map Prod.fst).Nodup) : ((sortParams l).map Prod.fst).Nodup :=
  (((sortParams_perm l).map Prod.fst).nodup_iff).mpr h

/-! ## Python dict insertion -/

theorem insertParam_eq_append : ∀ (ps : List (String × Value)) (k : String) (v : Value),
    k ∉ ps.map Prod.fst → insertParam ps k v = ps ++ [(k, v)]
  | [], _, _, _ => rfl
  | (k', v') :: rest, k, v, h => by
      have hne : k' ≠ k := by
        intro he; exact h (by simp [he])
      simp only [insertParam, hne, if_false]
      rw [insertParam_eq_append rest k v (fun hm => h (by simp [hm]))]
      simp

/-! ## Character classes of serializer output -/

/-- Whether a value is a float (used to state the float-free side
conditions; see the module comment). -/
def Value.isFloat : Value → Bool
  | .vFloat _ => true
  | _ => false

theorem toList_asString (l : List Char) : l.asString.toList = l := rfl

theorem asString_toList (s : String) : s.toList.asString = s := rfl

theorem space_cases {c : Char} (h : isSpaceChar c = true) :
    c = ' ' ∨ c = '\t' ∨ c = '\n' ∨ c = '\r' ∨ c = '\x0b' ∨ c = '\x0c' := by
  have h' := h
  simp [isSpaceChar] at h'
  tauto

theorem isNameChar_plain {c : Char} (h : isNameChar c = true) :
    isSpaceChar c = false ∧ c ≠ '"' ∧ c ≠ '[' ∧ c ≠ ']' ∧ c ≠ '=' := by
  refine ⟨?_, ?_, ?_, ?_, ?_⟩
  · by_contra hs
    have hs' : isSpaceChar c = true := by simpa using hs
    rcases space_cases hs' with rfl | rfl | rfl | rfl | rfl | rfl <;>
      exact absurd h (by decide)
  · rintro rfl; exact absurd h (by decide)
  · rintro rfl; exact absurd h (by decide)
  · rintro rfl; exact absurd h (by decide)
  · rintro rfl; exact absurd h (by decide)

theorem isNameStart_isNameChar {c : Char} (h : isNameStart c = true) :
    isNameChar c = true := by
  simp only [isNameStart, Bool.or_eq_true] at h
  rcases h with h | h
  · simp [isNameChar, Char.isAlphanum, h]
  · simp [isNameChar, h]

theorem isNameChars_all {cs : List Char} (h : isNameChars cs = true) :
    cs ≠ [] ∧ ∀ c ∈ cs, isNameChar c = true := by
  cases cs with
  | nil => exact absurd h (by decide)
  | cons c rest =>
      simp only [isNameChars, Bool.and_eq_true, List.all_eq_true] at h
      refine ⟨by simp, ?_⟩
      intro c' hc'
      rcases List.mem_cons.mp hc' with rfl | hm
      · exact isNameStart_isNameChar h.1
      · exact h.2 c' hm

theorem not_needs_quotes_plain {s : String} (h : _needs_quotes s = false) :
    s.toList ≠ [] ∧ ∀ c ∈ s.toList, isSpaceChar c = false ∧ c ≠ '"' ∧ c ≠ '=' := by
  unfold _needs_quotes at h
  simp only [Bool.or_eq_false_iff, List.any_eq_false, decide_eq_false_iff_not] at h
  refine ⟨h.1, fun c hc => ?_⟩
  have h2 := h.2 c hc
  have h2' : (isSpaceChar c || c == '"' || c == '=') = false := by
    simpa using h2
  simp only [Bool.or_eq_false_iff, beq_eq_false_iff_ne, ne_eq] at h2'
  exact ⟨h2'.1.1, h2'.1.2, h2'.2⟩

theorem intReprS_plain (n : Int) :
    (intReprS n).toList ≠ [] ∧
    ∀ c ∈ (intReprS n).toList, isSpaceChar c = false ∧ c ≠ '"' ∧ c ≠ '=' := by
  unfold intReprS
  by_cases hn : n < 0
  · rw [if_pos hn]
    have hto : (("-" : String) ++ (natReprL n.natAbs).asString).toList
        = '-' :: natReprL n.natAbs := rfl
    rw [hto]
    refine ⟨by simp, fun c hc => ?_⟩
    rcases List.mem_cons.mp hc with rfl | hm
    · exact ⟨rfl, by decide, by decide⟩
    · obtain ⟨d, hd, rfl⟩ := natReprL_mem c hm
      obtain ⟨h1, h2, h3, _⟩ := digitChar_facts hd
      exact ⟨h1, h2, h3⟩
  · rw [if_neg hn]
    have hto : ((natReprL n.natAbs).asString).toList = natReprL n.natAbs := rfl
    rw [hto]
    refine ⟨natReprL_ne_nil _, fun c hc => ?_⟩
    obtain ⟨d, hd, rfl⟩ := natReprL_mem c hc
    obtain ⟨h1, h2, h3, _⟩ := digitChar_facts hd
    exact ⟨h1, h2, h3⟩

theorem serialize_value_good (v : Value) (hf : v.isFloat = false) :
    (_serialize_value v).toList ≠ [] ∧ GoodTok (_serialize_value v).toList := by
  cases v with
  | vFloat lit => exact absurd hf (by simp [Value.isFloat])
  | vBool b =>
      cases b
      · exact ⟨by decide, by decide, by decide⟩
      · exact ⟨by decide, by decide, by decide⟩
  | vInt n =>
      obtain ⟨hne, hplain⟩ := intReprS_plain n
      exact ⟨hne, goodTok_plain _ hne (fun c hc => ⟨(hplain c hc).1, (hplain c hc).2.1⟩)⟩
  | vStr s =>
      by_cases hq : _needs_quotes s
      · have hto : (_serialize_value (.vStr s)).toList
            = '"' :: (escapeL s.toList ++ ['"']) := by
          simp only [_serialize_value, hq, if_true]
          show (('"' :: (escapeL s.toList).asString.toList) ++ ['"'] : List Char) = _
          rw [toList_asString]
          simp
        rw [hto]
        exact ⟨by simp, goodTok_quoted s.toList⟩
      · have hto : _serialize_value (.vStr s) = s := by
          simp [_serialize_value, hq]
        rw [hto]
        obtain ⟨hne, hplain⟩ := not_needs_quotes_plain (by simpa using hq)
        exact ⟨hne, goodTok_plain _ hne (fun c hc => ⟨(hplain c hc).1, (hplain c hc).2.1⟩)⟩

/-! ## takeWhile / dropWhile at a stop character -/

theorem takeWhile_append_stop {p : Char → Bool} : ∀ {xs : List Char} {y : Char} {ys : List Char},
    (∀ c ∈ xs, p c = true) → p y = false → (xs ++ y :: ys).takeWhile p = xs
  | [], y, ys, _, hy => by simp [List.takeWhile_cons, hy]
  | a :: as, y, ys, hx, hy => by
      simp only [List.cons_append, List.takeWhile_cons, hx a (by simp), if_true]
      rw [takeWhile_append_stop (fun c hc => hx c (by simp [hc])) hy]

theorem dropWhile_append_stop {p : Char → Bool} : ∀ {xs : List Char} {y : Char} {ys : List Char},
    (∀ c ∈ xs, p c = true) → p y = false → (xs ++ y :: ys).dropWhile p = y :: ys
  | [], y, ys, _, hy => by simp [List.dropWhile_cons, hy]
  | a :: as, y, ys, hx, hy => by
      simp only [List.cons_append, List.dropWhile_cons, hx a (by simp), if_true]
      exact dropWhile_append_stop (fun c hc => hx c (by simp [hc])) hy

/-! ## Escaping round-trip -/

theorem unescape_escapeL : ∀ s : List Char, _unescape_quoted (escapeL s) = s
  | [] => rfl
  | c :: cs => by
      by_cases hb : c = '\\'
      · subst hb
        show _unescape_quoted ('\\' :: '\\' :: escapeL cs) = _
        simp [_unescape_quoted, unescape_escapeL cs]
      · by_cases hq : c = '"'
        · subst hq
          show _unescape_quoted ('\\' :: '"' :: escapeL cs) = _
          simp [_unescape_quoted, unescape_escapeL cs]
        · have h1 : escapeL (c :: cs) = c :: escapeL cs := by
            simp [escapeL, escapeChar, hb, hq]
          rw [h1]
          have h2 : _unescape_quoted (c :: escapeL cs) = c :: _unescape_quoted (escapeL cs) := by
            rw [_unescape_quoted.eq_def]
            simp [hb]
          rw [h2, unescape_escapeL cs]

/-- Re-coercing the quoted serialization of a string gives the string
back byte-for-byte. -/
theorem coerce_quoted (s : String) (h : _needs_quotes s = true) :
    _coerce_value (_serialize_value (.vStr s)).toList = .vStr s := by
  have hto : (_serialize_value (.vStr s)).toList
      = '"' :: (escapeL s.toList ++ ['"']) := by
    simp only [_serialize_value, h, if_true]
    show (('"' :: (escapeL s.toList).asString.toList) ++ ['"'] : List Char) = _
    rw [toList_asString]
    simp
  rw [hto]
  have hcond : 2 ≤ ('"' :: (escapeL s.toList ++ ['"'])).length ∧
      ('"' :: (escapeL s.toList ++ ['"'])).head? = some '"' ∧
      ('"' :: (escapeL s.toList ++ ['"'])).getLast? = some '"' := by
    refine ⟨by simp, rfl, ?_⟩
    rw [show ('"' :: (escapeL s.toList ++ ['"']) : List Char)
        = ('"' :: escapeL s.toList) ++ ['"'] from by simp]
    exact List.getLast?_concat _
  rw [_coerce_value, if_pos hcond]
  have hinner : (('"' :: (escapeL s.toList ++ ['"'])).drop 1).dropLast
      = escapeL s.toList := by
    simp [List.dropLast_concat]
  rw [hinner, unescape_escapeL, asString_toList]

/-! ## Inversion of the parameter loop on serializer output -/

theorem goodTok_param {k sv : List Char}
    (hk : ∀ c ∈ k, isSpaceChar c = false ∧ c ≠ '"') (hsv : GoodTok sv) :
    GoodTok (k ++ '=' :: sv) := by
  refine ⟨by simp, ?_⟩
  rw [scanSt_append k ('=' :: sv) false false, scanSt_plain k hk]
  show scanSt ('=' :: sv) false false = some (false, false)
  have h1 : scanSt ('=' :: sv) false false = scanSt sv false false := by
    simp [scanSt, isSpaceChar]
  rw [h1]
  exact hsv.2

theorem paramTok_toList (k sv : String) :
    (k ++ "=" ++ sv).toList = k.toList ++ '=' :: sv.toList := by
  show (k.toList ++ ['=']) ++ sv.toList = _
  simp

theorem parseParams_emit : ∀ (qs acc : List (String × Value)),
    (∀ kv ∈ qs, kv.1.toList ≠ [] ∧ (∀ c ∈ kv.1.toList, c ≠ '=') ∧
      (_serialize_value kv.2).toList ≠ [] ∧
      _coerce_value (_serialize_value kv.2).toList = kv.2) →
    (qs.map Prod.fst).Nodup →
    (∀ kv ∈ qs, kv.1 ∉ acc.map Prod.fst) →
    parseParams (qs.map (fun kv => kv.1.toList ++ '=' :: (_serialize_value kv.2).toList)) acc
      = .ok (acc ++ qs)
  | [], acc, _, _, _ => by simp [parseParams]
  | (k, v) :: qs', acc, hkv, hnd, hdisj => by
      obtain ⟨hkne, hkeq, hsvne, hcoerce⟩ := hkv (k, v) (by simp)
      have hmem : '=' ∈ k.toList ++ '=' :: (_serialize_value v).toList := by simp
      have htake : (k.toList ++ '=' :: (_serialize_value v).toList).takeWhile
          (fun c => c != '=') = k.toList :=
        takeWhile_append_stop (fun c hc => by simpa using hkeq c hc) (by simp)
      have hdrop : (k.toList ++ '=' :: (_serialize_value v).toList).dropWhile
          (fun c => c != '=') = '=' :: (_serialize_value v).toList :=
        dropWhile_append_stop (fun c hc => by simpa using hkeq c hc) (by simp)
      have hknodup : k ∉ qs'.map Prod.fst := by
        have := hnd
        simp only [List.map, List.nodup_cons] at this
        exact this.1
      simp only [List.map, parseParams, hmem, not_true, if_false, htake, hdrop,
        if_neg hkne]
      rw [if_neg (show ¬ ('=' :: (_serialize_value v).toList).tail = [] from by
        simpa using hsvne)]
      have htail : ('=' :: (_serialize_value v).toList).tail = (_serialize_value v).toList := rfl
      rw [htail, asString_toList, hcoerce,
        insertParam_eq_append acc k v (hdisj (k, v) (by simp))]
      rw [parseParams_emit qs' (acc ++ [(k, v)])
        (fun kv hm => hkv kv (by simp [hm]))
        (by
          have := hnd
          simp only [List.map, List.nodup_cons] at this
          exact this.2)
        (fun kv hm => by
          have h1 : kv.1 ∉ acc.map Prod.fst := hdisj kv (by simp [hm])
          have h2 : kv.1 ≠ k := by
            intro he
            exact hknodup (he ▸ List.mem_map_of_mem Prod.fst hm)
          simp [h1, h2])]
      simp

/-! ## Inversion of the header parse on serializer output -/

theorem parse_target_plain {t : List Char} (h : isNameChars t = true) :
    _parse_target_count t = .ok (t, 1) := by
  obtain ⟨_, hall⟩ := isNameChars_all h
  have hnb : ∀ c ∈ t, (fun c => c != '[') c = true := fun c hc => by
    simpa using (isNameChar_plain (hall c hc)).2.2.1
  have htake : t.takeWhile (fun c => c != '[') = t :=
    List.takeWhile_eq_self_iff.mpr hnb
  have hdrop : t.dropWhile (fun c => c != '[') = [] :=
    List.dropWhile_eq_nil_iff.mpr hnb
  simp [_parse_target_count, htake, hdrop, h]

theorem parse_target_count_emit {t : List Char} (h : isNameChars t = true)
    {n : Int} (hn : 1 ≤ n) :
    _parse_target_count (t ++ '[' :: (natReprL n.natAbs ++ [']'])) = .ok (t, n) := by
  obtain ⟨_, hall⟩ := isNameChars_all h
  have hnb : ∀ c ∈ t, (fun c => c != '[') c = true := fun c hc => by
    simpa using (isNameChar_plain (hall c hc)).2.2.1
  have htake : (t ++ '[' :: (natReprL n.natAbs ++ [']'])).takeWhile
      (fun c => c != '[') = t :=
    takeWhile_append_stop hnb (by simp)
  have hdrop : (t ++ '[' :: (natReprL n.natAbs ++ [']'])).dropWhile
      (fun c => c != '[') = '[' :: (natReprL n.natAbs ++ [']']) :=
    dropWhile_append_stop hnb (by simp)
  have hlast : (natReprL n.natAbs ++ [']']).getLast? = some ']' := List.getLast?_concat _
  have hdl : (natReprL n.natAbs ++ [']']).dropLast = natReprL n.natAbs :=
    List.dropLast_concat
  have hnnil : natReprL n.natAbs ≠ [] := natReprL_ne_nil _
  have hnrb : ¬ (']' ∈ natReprL n.natAbs) := by
    intro hm
    obtain ⟨d, hd, he⟩ := natReprL_mem _ hm
    exact absurd he.symm (digitChar_facts hd).2.2.2.2.2.1
  have hdig : (natReprL n.natAbs).all isDigitChar = true := by
    rw [List.all_eq_true]
    intro c hc
    obtain ⟨d, hd, rfl⟩ := natReprL_mem c hc
    exact (digitChar_facts hd).2.2.2.1
  have hval : Int.ofNat (parseNatL (natReprL n.natAbs)) = n := by
    rw [parseNatL_natReprL]
    exact Int.natAbs_of_nonneg (by omega)
  unfold _parse_target_count
  simp only [htake, hdrop]
  rw [if_pos ⟨h, hlast, by rw [hdl]; exact hnnil, by rw [hdl]; exact hnrb⟩]
  rw [hdl]
  simp only [hdig, if_true]
  rw [hval, if_neg (by omega)]

/-! ## Lenient stripping is inert on serializer output -/

theorem strip_no_punct {toks : List (List Char)} {u : List Char}
    (hl : toks.getLast? = some u)
    (h : u ≠ ['.'] ∧ u ≠ [','] ∧ u ≠ [';']) :
    _strip_trailing_punctuation_token toks = toks := by
  unfold _strip_trailing_punctuation_token
  rw [hl]
  have hcond : ¬ (u = ['.'] ∨ u = [','] ∨ u = [';']) := by
    push_neg
    exact h
  simp [hcond]

/-! ## Well-formed records and the round-trip -/

/-- Record equality as Python `==` sees it: field equality with the
parameter dicts compared as maps.  The association lists built by
`insertParam` have distinct keys, so map equality is equality of the
key-sorted lists. -/
def ParsedCommand.eqv (a b : ParsedCommand) : Prop :=
  a.op = b.op ∧ a.target = b.target ∧ a.count = b.count ∧
  sortParams a.params = sortParams b.params

/-- Records for which the serialize/parse round-trip is proved: the
operation is canonical (as `parse_dsl` guarantees) and a plain
non-empty token, the target matches the header name grammar (as
`parse_dsl` guarantees), the count is at least one (ditto), parameter
keys are distinct plain tokens without `=` (as bare key tokens are),
and every parameter value is float-free and re-coerces to itself after
serialization. -/
def WF (r : ParsedCommand) : Prop :=
  canonicalize_op r.op = r.op ∧
  r.op.toList ≠ [] ∧
  (∀ c ∈ r.op.toList, isSpaceChar c = false ∧ c ≠ '"') ∧
  isNameChars r.target.toList = true ∧
  1 ≤ r.count ∧
  (r.params.map Prod.fst).Nodup ∧
  ∀ kv ∈ r.params,
    kv.1.toList ≠ [] ∧
    (∀ c ∈ kv.1.toList, isSpaceChar c = false ∧ c ≠ '"' ∧ c ≠ '=') ∧
    kv.2.isFloat = false ∧
    _coerce_value (_serialize_value kv.2).toList = kv.2

instance (a b : ParsedCommand) : Decidable (a.eqv b) := by
  unfold ParsedCommand.eqv
  infer_instance

instance (r : ParsedCommand) : Decidable (WF r) := by
  unfold WF
  infer_instance

theorem serialize_parse_roundtrip (r : ParsedCommand) (h : WF r) (lenient : Bool) :
    serialize_dsl r =
      .ok (joinSpace ([r.op, emitHeader r.target r.count] ++
        (sortParams r.params).map emitParam)) ∧
    parse_dsl (joinSpace ([r.op, emitHeader r.target r.count] ++
        (sortParams r.params).map emitParam)) lenient
      = .ok ⟨r.op, r.target, r.count, sortParams r.params⟩ := by
  obtain ⟨hcanon, hopne, hop, htarget, hcount, hnodup, hparams⟩ := h
  have hnotlt : ¬ r.count < 1 := by omega
  have hser : serialize_dsl r = .ok (joinSpace ([r.op, emitHeader r.target r.count] ++
      (sortParams r.params).map emitParam)) := by
    unfold serialize_dsl
    rw [if_neg hnotlt, hcanon]
  refine ⟨hser, ?_⟩
  have hparams' : ∀ kv ∈ sortParams r.params,
      kv.1.toList ≠ [] ∧
      (∀ c ∈ kv.1.toList, isSpaceChar c = false ∧ c ≠ '"' ∧ c ≠ '=') ∧
      kv.2.isFloat = false ∧
      _coerce_value (_serialize_value kv.2).toList = kv.2 :=
    fun kv hkv => hparams kv (sortParams_mem.mp hkv)
  have hsvgood : ∀ kv ∈ sortParams r.params,
      (_serialize_value kv.2).toList ≠ [] ∧ GoodTok (_serialize_value kv.2).toList :=
    fun kv hkv => serialize_value_good kv.2 (hparams' kv hkv).2.2.1
  have htargetne : r.target.toList ≠ [] := (isNameChars_all htarget).1
  have htargetall := (isNameChars_all htarget).2
  -- the emitted token character lists
  have hmapToks : ([r.op, emitHeader r.target r.count] ++
        (sortParams r.params).map emitParam).map String.toList
      = r.op.toList :: (emitHeader r.target r.count).toList ::
        (sortParams r.params).map
          (fun kv => kv.1.toList ++ '=' :: (_serialize_value kv.2).toList) := by
    simp only [List.map_append, List.map_cons, List.map_nil, List.map_map]
    have : (String.toList ∘ emitParam)
        = fun kv : String × Value => kv.1.toList ++ '=' :: (_serialize_value kv.2).toList := by
      funext kv
      show (emitParam kv).toList = _
      exact paramTok_toList kv.1 (_serialize_value kv.2)
    rw [this]
    rfl
  -- the bracketed header's character list
  have hbrk : ¬ r.count = 1 → (emitHeader r.target r.count).toList
      = r.target.toList ++ '[' :: (natReprL r.count.natAbs ++ [']']) := by
    intro h1
    unfold emitHeader
    rw [if_neg h1]
    rw [show intReprS r.count = (natReprL r.count.natAbs).asString from by
      unfold intReprS; rw [if_neg (by omega)]]
    show ((r.target.toList ++ ['[']) ++ (natReprL r.count.natAbs).asString.toList) ++ [']'] = _
    rw [toList_asString]
    simp
  -- every emitted token is good
  have hgoodHdr : GoodTok (emitHeader r.target r.count).toList := by
    by_cases h1 : r.count = 1
    · unfold emitHeader
      rw [if_pos h1]
      exact goodTok_plain _ htargetne (fun c hc =>
        ⟨(isNameChar_plain (htargetall c hc)).1, (isNameChar_plain (htargetall c hc)).2.1⟩)
    · rw [hbrk h1]
      apply goodTok_plain
      · simp
      · intro c hc
        rcases List.mem_append.mp hc with hmem | hmem
        · exact ⟨(isNameChar_plain (htargetall c hmem)).1,
            (isNameChar_plain (htargetall c hmem)).2.1⟩
        · rcases List.mem_cons.mp hmem with rfl | hmem2
          · exact ⟨rfl, by decide⟩
          · rcases List.mem_append.mp hmem2 with hm3 | hm3
            · obtain ⟨d, hd, rfl⟩ := natReprL_mem c hm3
              obtain ⟨p1, p2, _⟩ := digitChar_facts hd
              exact ⟨p1, p2⟩
            · have : c = ']' := by simpa using hm3
              subst this
              exact ⟨rfl, by decide⟩
  have hgood : ∀ t ∈ ([r.op, emitHeader r.target r.count] ++
      (sortParams r.params).map emitParam).map String.toList, GoodTok t := by
    rw [hmapToks]
    intro t ht
    rcases List.mem_cons.mp ht with rfl | ht2
    · exact goodTok_plain _ hopne hop
    rcases List.mem_cons.mp ht2 with rfl | ht3
    · exact hgoodHdr
    obtain ⟨kv, hkv, rfl⟩ := List.mem_map.mp ht3
    exact goodTok_param
      (fun c hc => ⟨((hparams' kv hkv).2.1 c hc).1, ((hparams' kv hkv).2.1 c hc).2.1⟩)
      (hsvgood kv hkv).2
  have htok : _tokenize (joinSpace ([r.op, emitHeader r.target r.count] ++
      (sortParams r.params).map emitParam)).toList
      = .ok (([r.op, emitHeader r.target r.count] ++
        (sortParams r.params).map emitParam).map String.toList) := by
    rw [joinSpace_toList]
    exact _tokenize_join _ (by simp) hgood
  -- the header token is never a punctuation singleton
  have hhdr_ne : ∀ u : List Char, u = ['.'] ∨ u = [','] ∨ u = [';'] →
      (emitHeader r.target r.count).toList ≠ u := by
    intro u hu he
    by_cases h1 : r.count = 1
    · have he' : r.target.toList = u := by
        rw [← he]
        unfold emitHeader
        rw [if_pos h1]
      rcases hu with rfl | rfl | rfl <;>
        · rw [he'] at htarget
          exact absurd htarget (by decide)
    · have he' := hbrk h1 ▸ he
      have hlen := congrArg List.length he'
      have h4 : 1 ≤ r.target.toList.length := List.length_pos.mpr htargetne
      rcases hu with rfl | rfl | rfl <;>
        · simp only [List.length_append, List.length_cons, List.length_nil] at hlen
          omega
  -- a parameter token is never a punctuation singleton
  have hpar_ne : ∀ kv ∈ sortParams r.params, ∀ u : List Char,
      u = ['.'] ∨ u = [','] ∨ u = [';'] →
      kv.1.toList ++ '=' :: (_serialize_value kv.2).toList ≠ u := by
    intro kv hkv u hu he
    have hk1 : 1 ≤ kv.1.toList.length := List.length_pos.mpr (hparams' kv hkv).1
    have hv1 : 1 ≤ (_serialize_value kv.2).toList.length :=
      List.length_pos.mpr (hsvgood kv hkv).1
    have hlen := congrArg List.length he
    rcases hu with rfl | rfl | rfl <;>
      · simp only [List.length_append, List.length_cons, List.length_nil] at hlen
        omega
  -- lenient stripping is inert on the emitted tokens
  have hstrip : _strip_trailing_punctuation_token
      (([r.op, emitHeader r.target r.count] ++
        (sortParams r.params).map emitParam).map String.toList)
      = ([r.op, emitHeader r.target r.count] ++
        (sortParams r.params).map emitParam).map String.toList := by
    rw [hmapToks]
    cases hpts : (sortParams r.params).map
        (fun kv => kv.1.toList ++ '=' :: (_serialize_value kv.2).toList) with
    | nil =>
      apply strip_no_punct (u := (emitHeader r.target r.count).toList)
      · rfl
      · exact ⟨hhdr_ne _ (Or.inl rfl), hhdr_ne _ (Or.inr (Or.inl rfl)),
          hhdr_ne _ (Or.inr (Or.inr rfl))⟩
    | cons p ps =>
      have hmapne : (sortParams r.params).map
          (fun kv => kv.1.toList ++ '=' :: (_serialize_value kv.2).toList) ≠ [] := by
        rw [hpts]; simp
      obtain ⟨u, hu⟩ : ∃ u, ((sortParams r.params).map
          (fun kv => kv.1.toList ++ '=' :: (_serialize_value kv.2).toList)).getLast?
            = some u := by
        rw [hpts, List.getLast?_eq_getLast _ (by simp)]
        exact ⟨_, rfl⟩
      obtain ⟨kv, hkvlast, hkveq⟩ : ∃ kv, kv ∈ sortParams r.params ∧
          kv.1.toList ++ '=' :: (_serialize_value kv.2).toList = u := by
        rw [List.getLast?_map] at hu
        cases hlast : (sortParams r.params).getLast? with
        | none => rw [hlast] at hu; exact absurd hu (by simp)
        | some kv =>
            rw [hlast] at hu
            exact ⟨kv, List.mem_of_mem_getLast? hlast, by simpa using hu⟩
      apply strip_no_punct (u := u)
      · rw [← hpts] at *
        rw [show (r.op.toList :: (emitHeader r.target r.count).toList ::
            (sortParams r.params).map
              (fun kv => kv.1.toList ++ '=' :: (_serialize_value kv.2).toList))
            = [r.op.toList, (emitHeader r.target r.count).toList] ++
              (sortParams r.params).map
                (fun kv => kv.1.toList ++ '=' :: (_serialize_value kv.2).toList) from rfl]
        rw [List.getLast?_append_of_ne_nil _ hmapne]
        exact hu
      · exact ⟨fun he => hpar_ne kv hkvlast _ (Or.inl rfl) (hkveq.trans he),
          fun he => hpar_ne kv hkvlast _ (Or.inr (Or.inl rfl)) (hkveq.trans he),
          fun he => hpar_ne kv hkvlast _ (Or.inr (Or.inr rfl)) (hkveq.trans he)⟩
  -- run the parameter loop
  have hpp : parseParams ((sortParams r.params).map
      (fun kv => kv.1.toList ++ '=' :: (_serialize_value kv.2).toList)) []
      = .ok (sortParams r.params) := by
    have := parseParams_emit (sortParams r.params) []
      (fun kv hkv => ⟨(hparams' kv hkv).1,
        (fun c hc => ((hparams' kv hkv).2.1 c hc).2.2),
        (hsvgood kv hkv).1, (hparams' kv hkv).2.2.2⟩)
      (sortParams_keys_nodup hnodup)
      (fun kv _ => by simp)
    simpa using this
  -- run the parser
  have hif : (if lenient = true then _strip_trailing_punctuation_token
        (([r.op, emitHeader r.target r.count] ++
          (sortParams r.params).map emitParam).map String.toList)
      else (([r.op, emitHeader r.target r.count] ++
          (sortParams r.params).map emitParam).map String.toList))
      = ([r.op, emitHeader r.target r.count] ++
          (sortParams r.params).map emitParam).map String.toList := by
    cases lenient
    · rfl
    · simpa using hstrip
  have hrun : parse_dsl (joinSpace ([r.op, emitHeader r.target r.count] ++
      (sortParams r.params).map emitParam)) lenient
      = parseTokens (if lenient = true then _strip_trailing_punctuation_token
          (([r.op, emitHeader r.target r.count] ++
            (sortParams r.params).map emitParam).map String.toList)
        else (([r.op, emitHeader r.target r.count] ++
            (sortParams r.params).map emitParam).map String.toList)) := by
    unfold parse_dsl
    rw [htok]
    rfl
  rw [hrun, hif, hmapToks]
  by_cases h1 : r.count = 1
  · have hhdr1 : (emitHeader r.target r.count).toList = r.target.toList := by
      unfold emitHeader
      rw [if_pos h1]
    rw [hhdr1]
    show (do
        let (target, count) ← _parse_target_count r.target.toList
        let params ← parseParams ((sortParams r.params).map
          (fun kv : String × Value =>
            kv.1.toList ++ '=' :: (_serialize_value kv.2).toList)) []
        Except.ok (⟨canonicalize_op r.op.toList.asString, target.asString, count, params⟩ :
          ParsedCommand)) = _
    rw [parse_target_plain htarget]
    show (do
        let params ← parseParams ((sortParams r.params).map
          (fun kv : String × Value =>
            kv.1.toList ++ '=' :: (_serialize_value kv.2).toList)) []
        Except.ok (⟨canonicalize_op r.op.toList.asString,
          r.target.toList.asString, (1 : Int), params⟩ : ParsedCommand)) = _
    rw [hpp]
    show Except.ok (⟨canonicalize_op r.op.toList.asString, r.target.toList.asString,
        (1 : Int), sortParams r.params⟩ : ParsedCommand) = _
    rw [asString_toList, asString_toList, hcanon, h1]
  · rw [hbrk h1]
    show (do
        let (target, count) ← _parse_target_count (r.target.toList ++
          '[' :: (natReprL r.count.natAbs ++ [']']))
        let params ← parseParams ((sortParams r.params).map
          (fun kv : String × Value =>
            kv.1.toList ++ '=' :: (_serialize_value kv.2).toList)) []
        Except.ok (⟨canonicalize_op r.op.toList.asString, target.asString, count, params⟩ :
          ParsedCommand)) = _
    rw [parse_target_count_emit htarget hcount]
    show (do
        let params ← parseParams ((sortParams r.params).map
          (fun kv : String × Value =>
            kv.1.toList ++ '=' :: (_serialize_value kv.2).toList)) []
        Except.ok (⟨canonicalize_op r.op.toList.asString,
          r.target.toList.asString, r.count, params⟩ : ParsedCommand)) = _
    rw [hpp]
    show Except.ok (⟨canonicalize_op r.op.toList.asString, r.target.toList.asString,
        r.count, sortParams r.params⟩ : ParsedCommand) = _
    rw [asString_toList, asString_toList, hcanon]

/-! ## Alias-table facts -/

theorem canonicalize_op_idem (op : String) :
    canonicalize_op (canonicalize_op op) = canonicalize_op op := by
  by_cases h1 : op = "jack"
  · subst h1; decide
  by_cases h2 : op = "scan"
  · subst h2; decide
  by_cases h3 : op = "ghost"
  · subst h3; decide
  by_cases h4 : op = "forge"
  · subst h4; decide
  by_cases h5 : op = "ping"
  · subst h5; decide
  by_cases h6 : op = "call"
  · subst h6; decide
  by_cases h7 : op = "relay"
  · subst h7; decide
  have hl : ALIAS_TO_CANON.lookup op = none := by
    have e1 : (op == "jack") = false := beq_eq_false_iff_ne.mpr h1
    have e2 : (op == "scan") = false := beq_eq_false_iff_ne.mpr h2
    have e3 : (op == "ghost") = false := beq_eq_false_iff_ne.mpr h3
    have e4 : (op == "forge") = false := beq_eq_false_iff_ne.mpr h4
    have e5 : (op == "ping") = false := beq_eq_false_iff_ne.mpr h5
    have e6 : (op == "call") = false := beq_eq_false_iff_ne.mpr h6
    have e7 : (op == "relay") = false := beq_eq_false_iff_ne.mpr h7
    simp only [ALIAS_TO_CANON, List.lookup, e1, e2, e3, e4, e5, e6, e7]
  have hfix : canonicalize_op op = op := by
    unfold canonicalize_op
    rw [hl]
  rw [hfix, hfix]

/-! ## Success shape of the parameter loop -/

theorem parseParams_ok_tokens : ∀ (toks : List (List Char)) (acc ps : List (String × Value)),
    parseParams toks acc = .ok ps → ∀ tok ∈ toks, '=' ∈ tok ∧
      tok.takeWhile (fun c => c != '=') ≠ [] ∧
      (tok.dropWhile (fun c => c != '=')).tail ≠ []
  | [], _, _, _, _, htok => absurd htok (by simp)
  | tok0 :: rest, acc, ps, h, tok, htok => by
      by_cases h1 : '=' ∈ tok0
      · rw [show parseParams (tok0 :: rest) acc =
              (if ¬ ('=' ∈ tok0) then
                .error ("malformed kv: missing '=' in token '" ++ tok0.asString ++ "'")
              else
                if tok0.takeWhile (fun c => c != '=') = [] then
                  .error ("malformed kv: empty key in token '" ++ tok0.asString ++ "'")
                else if (tok0.dropWhile (fun c => c != '=')).tail = [] then
                  .error ("malformed kv: empty value for key '" ++
                    (tok0.takeWhile (fun c => c != '=')).asString ++ "'")
                else parseParams rest (insertParam acc
                  (tok0.takeWhile (fun c => c != '=')).asString
                  (_coerce_value ((tok0.dropWhile (fun c => c != '=')).tail)))) from rfl,
            if_neg (by simpa using h1)] at h
        by_cases h2 : tok0.takeWhile (fun c => c != '=') = []
        · rw [if_pos h2] at h
          exact absurd h (by simp)
        · rw [if_neg h2] at h
          by_cases h3 : (tok0.dropWhile (fun c => c != '=')).tail = []
          · rw [if_pos h3] at h
            exact absurd h (by simp)
          · rw [if_neg h3] at h
            rcases List.mem_cons.mp htok with rfl | hmem
            · exact ⟨h1, h2, h3⟩
            · exact parseParams_ok_tokens rest _ ps h tok hmem
      · rw [show parseParams (tok0 :: rest) acc =
              (if ¬ ('=' ∈ tok0) then
                .error ("malformed kv: missing '=' in token '" ++ tok0.asString ++ "'")
              else
                if tok0.takeWhile (fun c => c != '=') = [] then
                  .error ("malformed kv: empty key in token '" ++ tok0.asString ++ "'")
                else if (tok0.dropWhile (fun c => c != '=')).tail = [] then
                  .error ("malformed kv: empty value for key '" ++
                    (tok0.takeWhile (fun c => c != '=')).asString ++ "'")
                else parseParams rest (insertParam acc
                  (tok0.takeWhile (fun c => c != '=')).asString
                  (_coerce_value ((tok0.dropWhile (fun c => c != '=')).tail)))) from rfl,
            if_pos (by simpa using h1)] at h
        exact absurd h (by simp)

/-! ## Claim C1: round-trip law -/

/-- C1 counterexample: the record produced by
`parse_dsl "gen txt a=\"5\""` carries the *string* parameter `"5"`;
serializing emits the bare token `a=5`, and re-parsing coerces it to
the *integer* 5, so `parse_dsl (serialize_dsl r)` differs from `r`
(in Python, `"5" == 5` is false). -/
theorem C1_roundtrip_counterexample :
    parse_dsl "gen txt a=\"5\"" = .ok ⟨"gen", "txt", 1, [("a", .vStr "5")]⟩ ∧
    (parse_dsl "gen txt a=\"5\"").bind serialize_dsl = .ok "gen txt a=5" ∧
    parse_dsl "gen txt a=5" = .ok ⟨"gen", "txt", 1, [("a", .vInt 5)]⟩ ∧
    ¬ ParsedCommand.eqv ⟨"gen", "txt", 1, [("a", .vInt 5)]⟩
        ⟨"gen", "txt", 1, [("a", .vStr "5")]⟩ ∧
    (⟨"gen", "txt", 1, [("a", .vInt 5)]⟩ : ParsedCommand)
      ≠ ⟨"gen", "txt", 1, [("a", .vStr "5")]⟩ :=
  ⟨rfl, rfl, rfl, by decide, by decide⟩

/-- C1 (amended): for every well-formed record — op canonical and a
plain token, target a header name, count ≥ 1, keys distinct plain
tokens, values float-free and stable under serialize-then-coerce (the
counterexample `params={"a": "5"}` violates exactly this stability) —
`serialize_dsl` succeeds, its output re-parses, and the re-parsed
record equals the original up to parameter order (`ParsedCommand.eqv`,
the model of Python `==` on records). -/
theorem C1_roundtrip_amended (r : ParsedCommand) (h : WF r) :
    ∃ t r', serialize_dsl r = .ok t ∧ parse_dsl t = .ok r' ∧
      ParsedCommand.eqv r' r := by
  obtain ⟨hs, hp⟩ := serialize_parse_roundtrip r h false
  exact ⟨_, _, hs, hp, rfl, rfl, rfl, sortParams_idem _⟩

/-- Witness for C1 (amended) at a concrete record. -/
theorem C1_roundtrip_witness :
    WF ⟨"gen", "img", 2, [("style", .vStr "studio"), ("seed", .vInt 42)]⟩ ∧
    ∃ t r', serialize_dsl ⟨"gen", "img", 2,
        [("style", .vStr "studio"), ("seed", .vInt 42)]⟩ = .ok t ∧
      parse_dsl t = .ok r' ∧
      ParsedCommand.eqv r' ⟨"gen", "img", 2,
        [("style", .vStr "studio"), ("seed", .vInt 42)]⟩ :=
  ⟨by decide, C1_roundtrip_amended _ (by decide)⟩

/-! ## Claim C4: idempotent canonicalization -/

/-- C4 counterexample: `canonicalize` (= `format_dsl`) is *not*
idempotent on every accepted line: the quoted string parameter
`a="True"` canonicalizes to the bare token `a=True`, which the second
canonicalization pass coerces to the boolean `true` and prints
lowercase. -/
theorem C4_canonicalize_counterexample :
    format_dsl "gen txt a=\"True\"" = .ok "gen txt a=True" ∧
    format_dsl "gen txt a=True" = .ok "gen txt a=true" ∧
    ("gen txt a=true" : String) ≠ "gen txt a=True" :=
  ⟨rfl, rfl, by decide⟩

/-- C4 (amended): `canonicalize(canonicalize(L)) = canonicalize(L)`
holds for every line (under either value of the lenient flag) whose
parsed record is well-formed — in particular whose parameter values
re-coerce stably, which the counterexample `a="True"` violates.
Purity in the input and the lenient flag is inherent to the embedding:
`format_dsl` is a function of exactly `(line, lenient)`. -/
theorem C4_canonicalize_idem_amended (line : String) (lenient : Bool) (r : ParsedCommand)
    (hp : parse_dsl line lenient = .ok r) (hwf : WF r) :
    ∃ t, format_dsl line lenient = .ok t ∧ format_dsl t lenient = .ok t := by
  obtain ⟨hs, hp2⟩ := serialize_parse_roundtrip r hwf lenient
  refine ⟨joinSpace ([r.op, emitHeader r.target r.count] ++
    (sortParams r.params).map emitParam), ?_, ?_⟩
  · unfold format_dsl
    rw [hp]
    exact hs
  · unfold format_dsl
    rw [hp2]
    show serialize_dsl ⟨r.op, r.target, r.count, sortParams r.params⟩ = _
    unfold serialize_dsl
    rw [if_neg (show ¬ r.count < 1 from by
      have := hwf.2.2.2.2.1
      omega)]
    show Except.ok (joinSpace ([canonicalize_op r.op, emitHeader r.target r.count] ++
      (sortParams (sortParams r.params)).map emitParam)) = _
    rw [hwf.1, sortParams_idem]

/-- Witness for C4 (amended) at a concrete line. -/
theorem C4_canonicalize_idem_witness :
    parse_dsl "jack img[2] b=1 a=x" false
      = .ok ⟨"gen", "img", 2, [("b", .vInt 1), ("a", .vStr "x")]⟩ ∧
    WF ⟨"gen", "img", 2, [("b", .vInt 1), ("a", .vStr "x")]⟩ ∧
    ∃ t, format_dsl "jack img[2] b=1 a=x" false = .ok t ∧
      format_dsl t false = .ok t :=
  ⟨rfl, by decide,
    C4_canonicalize_idem_amended "jack img[2] b=1 a=x" false
      ⟨"gen", "img", 2, [("b", .vInt 1), ("a", .vStr "x")]⟩ rfl (by decide)⟩

/-! ## Claim C5: parameter-token errors -/

/-- C5 counterexample: a token with more than one `=` does *not* fail:
`parse_dsl "gen txt a=b=c"` succeeds, splitting at the first `=` and
absorbing the rest into the value (and the `=` counting of the source
is quote-unaware, so "unescaped" plays no role). -/
theorem C5_param_token_counterexample :
    parse_dsl "gen txt a=b=c" = .ok ⟨"gen", "txt", 1, [("a", .vStr "b=c")]⟩ := rfl

/-- C5 (amended): each token after the first two must contain at least
one `=` (anywhere in the token, quote-unaware); the token is split at
its first `=`.  A token with no `=` fails with a malformed-parameter
error whose message contains the offending token verbatim; an empty
key fails likewise (message contains the token), and an empty value
fails naming the key.  A successful parse implies every parameter
token had an `=`, a non-empty key and a non-empty value. -/
theorem C5_param_token_errors :
    (∀ (tok : List Char) (rest : List (List Char)) (acc : List (String × Value)),
      ¬ ('=' ∈ tok) → parseParams (tok :: rest) acc
        = .error ("malformed kv: missing '=' in token '" ++ tok.asString ++ "'")) ∧
    (∀ (toks : List (List Char)) (acc ps : List (String × Value)),
      parseParams toks acc = .ok ps → ∀ tok ∈ toks, '=' ∈ tok ∧
        tok.takeWhile (fun c => c != '=') ≠ [] ∧
        (tok.dropWhile (fun c => c != '=')).tail ≠ []) ∧
    parse_dsl "gen txt noeq" = .error "malformed kv: missing '=' in token 'noeq'" ∧
    parse_dsl "gen txt =v" = .error "malformed kv: empty key in token '=v'" ∧
    parse_dsl "gen txt k=" = .error "malformed kv: empty value for key 'k'" := by
  refine ⟨?_, parseParams_ok_tokens, rfl, rfl, rfl⟩
  intro tok rest acc h
  rw [show parseParams (tok :: rest) acc =
        (if ¬ ('=' ∈ tok) then
          .error ("malformed kv: missing '=' in token '" ++ tok.asString ++ "'")
        else
          if tok.takeWhile (fun c => c != '=') = [] then
            .error ("malformed kv: empty key in token '" ++ tok.asString ++ "'")
          else if (tok.dropWhile (fun c => c != '=')).tail = [] then
            .error ("malformed kv: empty value for key '" ++
              (tok.takeWhile (fun c => c != '=')).asString ++ "'")
          else parseParams rest (insertParam acc
            (tok.takeWhile (fun c => c != '=')).asString
            (_coerce_value ((tok.dropWhile (fun c => c != '=')).tail)))) from rfl,
    if_pos (by simpa using h)]

/-- Witness for C5 (amended) at concrete tokens. -/
theorem C5_param_token_errors_witness :
    parseParams [['n', 'o']] []
      = .error "malformed kv: missing '=' in token 'no'" ∧
    ('=' ∈ ['a', '=', 'b']) :=
  ⟨C5_param_token_errors.1 ['n', 'o'] [] [] (by decide),
   (C5_param_token_errors.2.1 [['a', '=', 'b']] [] [("a", .vStr "b")]
      rfl ['a', '=', 'b'] (by decide)).1⟩

/-! ## Claim C8: quoting determinism -/

/-- C8: the value `two words` serializes as `"two words"`; a value
with an embedded quote serializes with a backslash-escaped quote; and
every string value that `_serialize_value` wraps in quotes re-coerces
byte-for-byte (`_coerce_value` after `_serialize_value` is the
identity on quoted strings). -/
theorem C8_quoting_determinism :
    _serialize_value (.vStr "two words") = "\"two words\"" ∧
    _serialize_value (.vStr "he said \"yo\"") = "\"he said \\\"yo\\\"\"" ∧
    (∀ s : String, _needs_quotes s = true →
      _coerce_value (_serialize_value (.vStr s)).toList = .vStr s) :=
  ⟨rfl, rfl, fun s h => coerce_quoted s h⟩

/-- Witness for C8 at a concrete quoted value. -/
theorem C8_quoting_determinism_witness :
    _needs_quotes "two words" = true ∧
    _coerce_value (_serialize_value (.vStr "two words")).toList = .vStr "two words" :=
  ⟨by decide, C8_quoting_determinism.2.2 "two words" (by decide)⟩

/-! ## Claim C9: alias resolution is idempotent -/

/-- C9: `canonicalize_op` is idempotent on every operation string
(normalizing an already-canonical operation is a no-op), and
`parse_dsl "jack img style=studio"` resolves the alias to `gen` with
target `img`, re-serializing as `gen img style=studio`. -/
theorem C9_alias_idempotent :
    (∀ op : String, canonicalize_op (canonicalize_op op) = canonicalize_op op) ∧
    parse_dsl "jack img style=studio"
      = .ok ⟨"gen", "img", 1, [("style", .vStr "studio")]⟩ ∧
    (parse_dsl "jack img style=studio").bind serialize_dsl
      = .ok "gen img style=studio" :=
  ⟨canonicalize_op_idem, rfl, rfl⟩

/-! ## Claim C10: serialize_dsl normalizes the operation itself -/

/-- C10: serializing any payload gives the same text as serializing
the payload with its op replaced by `canonicalize_op op`; in
particular a record whose op is the alias `jack` serializes with the
canonical op `gen`. -/
theorem C10_serialize_normalizes_op :
    (∀ p : ParsedCommand,
      serialize_dsl p = serialize_dsl ⟨canonicalize_op p.op, p.target, p.count, p.params⟩) ∧
    serialize_dsl ⟨"jack", "img", 1, [("style", .vStr "studio")]⟩
      = .ok "gen img style=studio" := by
  constructor
  · intro p
    unfold serialize_dsl
    rw [canonicalize_op_idem p.op]
  · rfl

/-! ## `choomlang/registry.py` -/

/-- `CANONICAL_OPS` (a Python set; modelled as the list of its
elements in source order, used only through membership and
`sorted`). -/
def CANONICAL_OPS : List String :=
  ["gen", "classify", "summarize", "plan", "healthcheck", "toolcall", "forward"]

/-- `CANONICAL_TARGETS`. -/
def CANONICAL_TARGETS : List String :=
  ["img", "txt", "aud", "vid", "vec", "tool", "script"]

/-- `OP_ALIASES` from `registry.py` (the source duplicates the alias
table of `dsl.py`). -/
def OP_ALIASES : List (String × String) :=
  [("jack", "gen"), ("scan", "classify"), ("ghost", "summarize"),
   ("forge", "plan"), ("ping", "healthcheck"), ("call", "toolcall"),
   ("relay", "forward")]

/-- `normalize_op` from `registry.py`. -/
def normalize_op (op : String) : String :=
  match OP_ALIASES.lookup op with
  | some v => v
  | none => op

/-- Decoded JSON values (the output of Python `json.loads`; the
decoding itself is not modelled).  `jNum` carries the literal of a
non-integer JSON number; no claim inspects such values.  Objects are
the decoded dicts: association lists with distinct keys. -/
inductive JVal where
  | jNull
  | jBool (b : Bool)
  | jInt (n : Int)
  | jNum (lit : String)
  | jStr (s : String)
  | jArr (xs : List JVal)
  | jObj (kvs : List (String × JVal))

/-- Python dict `get`. -/
def jLookup (kvs : List (String × JVal)) (k : String) : Option JVal :=
  kvs.lookup k

/-- Python `isinstance(v, int)` together with `int(v)`: a decoded
`int` is itself; a Python `bool` is a subtype of `int` (`True` counts
as 1). -/
def jIntVal : JVal → Option Int
  | .jInt n => some n
  | .jBool b => some (if b then 1 else 0)
  | _ => none

/-- Python `repr` of a string, for strings without quotes, backslashes
or control characters (the only case any theorem inspects, guarded by
their hypotheses; Python would choose different quoting or escapes
otherwise). -/
def pyReprStr (s : String) : String := "'" ++ s ++ "'"

/-- `", ".join` (Python). -/
def joinCommaSp : List String → String
  | [] => ""
  | [x] => x
  | x :: xs => x ++ ", " ++ joinCommaSp xs

/-- `",".join` (Python). -/
def joinComma : List String → String
  | [] => ""
  | [x] => x
  | x :: xs => x ++ "," ++ joinComma xs

mutual
/-- Python `repr` of a decoded JSON value (see `pyReprStr` for the
string caveat; floats keep their literal). -/
def pyReprJ : JVal → String
  | .jNull => "None"
  | .jBool b => if b then "True" else "False"
  | .jInt n => intReprS n
  | .jNum lit => lit
  | .jStr s => pyReprStr s
  | .jArr xs => "[" ++ joinCommaSp (pyReprJList xs) ++ "]"
  | .jObj kvs => "\x7b" ++ joinCommaSp (pyReprJObj kvs) ++ "\x7d"

def pyReprJList : List JVal → List String
  | [] => []
  | v :: vs => pyReprJ v :: pyReprJList vs

def pyReprJObj : List (String × JVal) → List String
  | [] => []
  | (k, v) :: kvs => (pyReprStr k ++ ": " ++ pyReprJ v) :: pyReprJObj kvs
end

/-- String sorting (Python `sorted` over strings, by code points). -/
def insertSortedStr (x : String) : List String → List String
  | [] => [x]
  | y :: ys => if keyLe x y then x :: y :: ys else y :: insertSortedStr x ys

/-- Python `sorted` on a list of strings. -/
def sortStrings : List String → List String
  | [] => []
  | x :: xs => insertSortedStr x (sortStrings xs)

/-- Python `repr`/`str` of a list of strings (used in the suggested
fixes `f"{sorted(CANONICAL_OPS)}"`). -/
def pyListRepr (xs : List String) : String :=
  "[" ++ joinCommaSp (xs.map pyReprStr) ++ "]"

/-- `validate_payload` from `registry.py`: shape checks in source
order, then strict-set checks, raising `ValueError` with the exact
message strings. -/
def validate_payload (payload : List (String × JVal))
    (strict_ops strict_targets : Bool) : Except String Unit :=
  let opV := (jLookup payload "op").getD .jNull
  match opV with
  | .jStr opS =>
    let targetV := (jLookup payload "target").getD .jNull
    (match targetV with
    | .jStr targetS =>
      let op := normalize_op opS
      let countV := (jLookup payload "count").getD (.jInt 1)
      (match jIntVal countV with
      | some count =>
        if count < 1 then
          .error ("invalid field count=" ++ pyReprJ countV ++ ": expected integer >= 1")
        else
          let paramsV := (jLookup payload "params").getD (.jObj [])
          (match paramsV with
          | .jObj _ =>
            if strict_ops ∧ ¬ (op ∈ CANONICAL_OPS) then
              .error ("invalid field op=" ++ pyReprStr opS ++ ": unknown canonical op")
            else if strict_targets ∧ ¬ (targetS ∈ CANONICAL_TARGETS) then
              .error ("invalid field target=" ++ pyReprStr targetS ++ ": unknown canonical target")
            else .ok ()
          | other =>
            .error ("invalid field params=" ++ pyReprJ other ++ ": expected object/dict"))
      | none =>
        .error ("invalid field count=" ++ pyReprJ countV ++ ": expected integer >= 1"))
    | other =>
      .error ("invalid field target=" ++ pyReprJ other ++ ": expected string"))
  | other =>
    .error ("invalid field op=" ++ pyReprJ other ++ ": expected string")

/-! ## `choomlang/protocol.py`: scripts -/

/-- Python `str.rstrip`. -/
def rstripChars (cs : List Char) : List Char :=
  (cs.reverse.dropWhile isSpaceChar).reverse

/-- The character loop of `strip_inline_comment`: truncate at the
first `#` outside quotes (rstripping the prefix), else rstrip the
whole line. -/
def stripCommentAux : List Char → Bool → Bool → List Char → List Char
  | [], _, _, acc => rstripChars acc
  | c :: cs, true, esc, acc =>
      if esc then stripCommentAux cs true false (acc ++ [c])
      else if c = '\\' then stripCommentAux cs true true (acc ++ [c])
      else if c = '"' then stripCommentAux cs false false (acc ++ [c])
      else stripCommentAux cs true false (acc ++ [c])
  | c :: cs, false, _, acc =>
      if c = '"' then stripCommentAux cs true false (acc ++ [c])
      else if c = '#' then rstripChars acc
      else stripCommentAux cs false false (acc ++ [c])

/-- `strip_inline_comment` from `protocol.py`. -/
def strip_inline_comment (line : String) : String :=
  (stripCommentAux line.toList false false []).asString

/-- `str.splitlines`, modelled for `\n` separators (the other Unicode
line terminators Python recognizes are not modelled; script text in
the protocol uses `\n`). -/
def splitLinesAux : List Char → List Char → List (List Char)
  | [], cur => [cur]
  | c :: cs, cur =>
      if c = '\n' then cur :: splitLinesAux cs []
      else splitLinesAux cs (cur ++ [c])

/-- `iter_script_lines` from `protocol.py`: 1-based line numbers,
skipping blank lines, `#`-comment lines, and lines that are empty
after inline-comment stripping. -/
def iter_script_lines (text : String) : List (Nat × String) :=
  ((splitLinesAux text.toList []).enum).filterMap (fun p =>
    let stripped := stripChars p.2
    if stripped = [] ∨ stripped.head? = some '#' then none
    else
      let wc := stripChars (stripCommentAux p.2 false false [])
      if wc = [] then none
      else some (p.1 + 1, wc.asString))

/-- Decimal rendering of a `Nat` as a string. -/
def natReprS (n : Nat) : String := (natReprL n).asString

/-- `parse_script_text` from `protocol.py`: parse each script line
with `parse_dsl`, prefixing errors with the 1-based line number. -/
def parse_script_rows : List (Nat × String) → Except String (List ParsedCommand)
  | [] => .ok []
  | (ln, line) :: rest =>
      match parse_dsl line with
      | .error e => .error ("line " ++ natReprS ln ++ ": " ++ e)
      | .ok r =>
          match parse_script_rows rest with
          | .error e => .error e
          | .ok rs => .ok (r :: rs)

/-- `parse_script_text` from `protocol.py`. -/
def parse_script_text (text : String) : Except String (List ParsedCommand) :=
  parse_script_rows (iter_script_lines text)

/-- `KNOWN_OPS` from `protocol.py` (a second literal copy of the
canonical op list). -/
def KNOWN_OPS : List String :=
  ["gen", "classify", "summarize", "plan", "healthcheck", "toolcall", "forward"]

/-- `KNOWN_TARGETS` from `protocol.py`. -/
def KNOWN_TARGETS : List String :=
  ["img", "txt", "aud", "vid", "vec", "tool", "script"]

/-- `canonical_json_schema` from `protocol.py`, as the decoded JSON
value the dict denotes (dict literals keep source insertion order; the
`\x7b**op_schema, "description": ...\x7d` spreads append the description
after the spread keys). -/
def canonical_json_schema (mode : String := "strict") : Except String JVal :=
  if ¬ (mode = "strict" ∨ mode = "permissive") then
    .error "mode must be 'strict' or 'permissive'"
  else
    let op_schema : List (String × JVal) :=
      if mode = "strict" then [("$ref", .jStr "#/$defs/knownOp")]
      else [("anyOf", .jArr [.jObj [("$ref", .jStr "#/$defs/knownOp")],
                             .jObj [("type", .jStr "string")]])]
    let target_schema : List (String × JVal) :=
      if mode = "strict" then [("$ref", .jStr "#/$defs/knownTarget")]
      else [("anyOf", .jArr [.jObj [("$ref", .jStr "#/$defs/knownTarget")],
                             .jObj [("type", .jStr "string")]])]
    let op_desc : String :=
      if mode = "strict" then "Canonical operation name."
      else "Canonical operation name. Known ops are enumerated but extensions are allowed."
    let target_desc : String :=
      if mode = "strict" then "Canonical target domain."
      else "Target domain. Known targets are enumerated but extensions are allowed."
    .ok (.jObj
      [("$schema", .jStr "https://json-schema.org/draft/2020-12/schema"),
       ("title", .jStr "ChoomLang canonical payload"),
       ("type", .jStr "object"),
       ("required", .jArr [.jStr "op", .jStr "target", .jStr "count", .jStr "params"]),
       ("additionalProperties", .jBool false),
       ("properties", .jObj
         [("op", .jObj (op_schema ++ [("description", .jStr op_desc)])),
          ("target", .jObj (target_schema ++ [("description", .jStr target_desc)])),
          ("count", .jObj [("type", .jStr "integer"), ("minimum", .jInt 1),
                           ("default", .jInt 1)]),
          ("params", .jObj
            [("type", .jStr "object"),
             ("default", .jObj []),
             ("additionalProperties", .jObj
               [("anyOf", .jArr [.jObj [("type", .jStr "string")],
                                 .jObj [("type", .jStr "number")],
                                 .jObj [("type", .jStr "boolean")],
                                 .jObj [("type", .jStr "null")]])])])]),
       ("allOf", .jArr
         [.jObj
           [("if", .jObj
             [("properties", .jObj
               [("op", .jObj [("const", .jStr "gen")]),
                ("target", .jObj [("const", .jStr "script")])]),
              ("required", .jArr [.jStr "op", .jStr "target"])]),
            ("then", .jObj
             [("properties", .jObj
               [("params", .jObj
                 [("type", .jStr "object"),
                  ("required", .jArr [.jStr "text"]),
                  ("properties", .jObj
                    [("text", .jObj [("type", .jStr "string")])]),
                  ("not", .jObj [("required", .jArr [.jStr "prompt"])])])])])]]),
       ("$defs", .jObj
         [("knownOp", .jObj [("type", .jStr "string"),
                             ("enum", .jArr (KNOWN_OPS.map JVal.jStr))]),
          ("knownTarget", .jObj [("type", .jStr "string"),
                                 ("enum", .jArr (KNOWN_TARGETS.map JVal.jStr))])])])

/-- The gen/script conditional of `canonical_json_schema` (the single
`allOf` entry), for stating what the schema requires. -/
def genScriptSchemaConditional : JVal :=
  .jObj
    [("if", .jObj
      [("properties", .jObj
        [("op", .jObj [("const", .jStr "gen")]),
         ("target", .jObj [("const", .jStr "script")])]),
       ("required", .jArr [.jStr "op", .jStr "target"])]),
     ("then", .jObj
      [("properties", .jObj
        [("params", .jObj
          [("type", .jStr "object"),
           ("required", .jArr [.jStr "text"]),
           ("properties", .jObj
             [("text", .jObj [("type", .jStr "string")])]),
           ("not", .jObj [("required", .jArr [.jStr "prompt"])])])])])]

/-- Descend a decoded JSON object along a key path (for stating what
the schema contains). -/
def jPath : JVal → List String → Option JVal
  | v, [] => some v
  | .jObj kvs, k :: ks =>
      match jLookup kvs k with
      | some v => jPath v ks
      | none => none
  | _, _ :: _ => none

/-! ## `choomlang/relay.py`: structured validation -/

/-- The `RelayError` exception class: message plus diagnostic
fields. -/
structure RelayErr where
  message : String
  httpStatus : Option Int := none
  rawResponse : Option String := none
  reason : Option String := none
  stage : Option String := none
deriving DecidableEq, Repr

/-- The `normalized` payload produced by `parse_structured_reply`:
op/target normalized to strings, count to an integer, params the
decoded parameter dict. -/
structure NormPayload where
  op : String
  target : String
  count : Int
  params : List (String × JVal)

/-- Python `in` on strings (substring test). -/
def pyIn (pat s : String) : Bool := decide (pat.toList <:+: s.toList)

/-- The `suggestion` computation in the `except ValueError` handler of
`parse_structured_reply`. -/
def structuredSuggestion (message : String) (badOp : JVal) : String :=
  if pyIn "field op" message then
    match badOp with
    | .jStr bad =>
        let candidate := normalize_op bad
        if candidate ∈ CANONICAL_OPS ∧ candidate ≠ bad then
          "alias detected: try canonical op '" ++ candidate ++ "' or use --allow-unknown-op"
        else
          "use canonical ops " ++ pyListRepr (sortStrings CANONICAL_OPS) ++
            " or --allow-unknown-op; try --no-schema"
    | _ => "use --allow-unknown-op/--allow-unknown-target or try --no-schema"
  else if pyIn "field target" message then
    "use canonical targets " ++ pyListRepr (sortStrings CANONICAL_TARGETS) ++
      " or --allow-unknown-target; try --no-schema"
  else "use --allow-unknown-op/--allow-unknown-target or try --no-schema"

/-- The `invalid_fields` computation of the same handler. -/
def invalidFieldsOf (message : String) : List String :=
  (if pyIn "field op" message then ["op"] else []) ++
  (if pyIn "field target" message then ["target"] else []) ++
  (if pyIn "field count" message then ["count"] else []) ++
  (if pyIn "field params" message then ["params"] else [])

/-- How `_serialize_value` sees a decoded JSON parameter value when
`json_to_dsl` serializes the normalized payload: bools and ints take
their own branches, floats keep their literal (see the module
comment), everything else reaches the `str(value)` fallback
(`str(None) = "None"`, containers render like their `repr`). -/
def jvalToValue : JVal → Value
  | .jBool b => .vBool b
  | .jInt n => .vInt n
  | .jNum lit => .vFloat lit
  | .jStr s => .vStr s
  | .jNull => .vStr "None"
  | .jArr xs => .vStr (pyReprJ (.jArr xs))
  | .jObj kvs => .vStr (pyReprJ (.jObj kvs))

/-- `json_to_dsl` (`translate.py`) on a normalized payload:
`serialize_dsl` over the JSON-valued parameter dict. -/
def json_to_dsl (p : NormPayload) : Except String String :=
  serialize_dsl ⟨p.op, p.target, p.count,
    p.params.map (fun kv => (kv.1, jvalToValue kv.2))⟩

/-- The `except ValueError` handler of `parse_structured_reply`: the
diagnostic `RelayError` built from the validation message, the offending
`op` value and the raw response text. -/
def structuredValidationError (raw : String) (badOp : JVal) (message : String) :
    RelayErr :=
  let suggestion := structuredSuggestion message badOp
  let invalid_fields := invalidFieldsOf message
  { message := "structured relay validation failed: " ++ message ++
      "; suggested fix: " ++ suggestion
    rawResponse := some raw
    reason := if invalid_fields = [] then none else some (joinComma invalid_fields)
    stage := some "structured-validation" }

/-- The tail of `parse_structured_reply`'s success path (the
`finish()` closure in `relay.py`): serialize the normalized payload
back to a DSL line via `json_to_dsl`. -/
def psrFinish (op targetS : String) (countN : Int)
    (params : List (String × JVal)) : Except RelayErr (NormPayload × String) :=
  match json_to_dsl ⟨op, targetS, countN, params⟩ with
  | .ok d => .ok (⟨op, targetS, countN, params⟩, d)
  | .error e =>
      -- unreachable: `validate_payload` guarantees count ≥ 1, the
      -- only failure of `serialize_dsl`; Python would propagate a
      -- DSLParseError here.
      .error { message := e }

/-- The gen/script conditional block of `parse_structured_reply`
(`relay.py`): requires a string `params.text`, forbids
`params.prompt`, and validates the text with `parse_script_text`. -/
def psrGenScript (raw op targetS : String) (countN : Int)
    (params : List (String × JVal)) : Except RelayErr (NormPayload × String) :=
  match jLookup params "text" with
  | some (.jStr scriptText) =>
      if (jLookup params "prompt").isSome then
        .error
          { message := "structured relay validation failed: field params.prompt is not allowed when op='gen' and target='script'; suggested fix: emit script in params.text"
            rawResponse := some raw
            reason := some "params"
            stage := some "structured-validation" }
      else
        match parse_script_text scriptText with
        | .error e =>
            .error
              { message := "structured relay validation failed: params.text must be a valid multi-line ChoomLang script (" ++ e ++ "); suggested fix: emit parseable script lines in params.text"
                rawResponse := some raw
                reason := some "params"
                stage := some "structured-validation" }
        | .ok _ => psrFinish op targetS countN params
  | _ =>
      .error
        { message := "structured relay validation failed: field params.text is required string when op='gen' and target='script'; suggested fix: include generated script in params.text (not prompt)"
          rawResponse := some raw
          reason := some "params"
          stage := some "structured-validation" }

/-- The body of `parse_structured_reply` after `validate_payload`
succeeded: op normalization, the gen/script rule, and `json_to_dsl`. -/
def psrNormalized (raw : String) (kvs : List (String × JVal)) :
    Except RelayErr (NormPayload × String) :=
  match (jLookup kvs "op").getD .jNull, (jLookup kvs "target").getD .jNull,
      jIntVal ((jLookup kvs "count").getD (.jInt 1)),
      (jLookup kvs "params").getD (.jObj []) with
        | .jStr opS, .jStr targetS, some countN, .jObj params =>
            if normalize_op opS = "gen" ∧ targetS = "script" then
              psrGenScript raw (normalize_op opS) targetS countN params
            else psrFinish (normalize_op opS) targetS countN params
        | _, _, _, _ =>
            -- unreachable: `validate_payload` succeeded, so op and target are
            -- strings, count is an integer and params is an object.
            .error { message := "unreachable: validated payload shape" }

/-- `parse_structured_reply` from `relay.py`, from the decoded JSON
value (`json.loads` itself is not modelled: `raw` is the original
response text, used for the `raw_response` diagnostic, and `payload`
its decoded value; the not-valid-JSON branch is therefore absent). -/
def parse_structured_reply (raw : String) (payload : JVal)
    (strict_ops : Bool := true) (strict_targets : Bool := true) :
    Except RelayErr (NormPayload × String) :=
  match payload with
  | .jObj kvs =>
    let normalized : List (String × JVal) :=
      [("op", (jLookup kvs "op").getD .jNull),
       ("target", (jLookup kvs "target").getD .jNull),
       ("count", (jLookup kvs "count").getD (.jInt 1)),
       ("params", (jLookup kvs "params").getD (.jObj []))]
    match validate_payload normalized strict_ops strict_targets with
    | .error message =>
        .error (structuredValidationError raw ((jLookup kvs "op").getD .jNull) message)
    | .ok _ => psrNormalized raw kvs
  | _ => .error { message := "structured relay response must be a JSON object" }

/-! ## `choomlang/relay.py`: the structured-step state machine -/

/-- `decide_structured_recovery` from `relay.py` (the pure decision
function of the fallback matrix). -/
def decide_structured_recovery (schema_failed json_failed strict fallback_enabled : Bool) :
    String :=
  if ¬ schema_failed then "schema-ok"
  else if ¬ fallback_enabled then "fail-no-fallback"
  else if ¬ json_failed then "retry-json"
  else if strict then "fail-strict"
  else "fallback-dsl"

/-- `_format_structured_failure` from `relay.py`. -/
def _format_structured_failure (stage : String) (error : RelayErr) : RelayErr :=
  { message := "structured relay failed in mode " ++ stage ++ "; reason=" ++ error.message ++
      "; last raw assistant content=" ++ error.rawResponse.getD "<none>" ++
      "; suggested fix: try --no-schema; check model names from `ollama list`"
    httpStatus := error.httpStatus
    rawResponse := error.rawResponse
    stage := some stage }

/-- Outcome of one `_chat_once` call followed by
`parse_structured_reply` (the transport call and JSON decode are
external I/O; a stage attempt is abstracted as its combined result). -/
structure ParsedAttempt where
  raw : String
  dsl : String
  payload : NormPayload
  elapsedMs : Int
  httpStatus : Int

/-- Outcome of `_dsl_model_step` (the protocol-line fallback path,
itself driven by transport calls). -/
structure DslStepResult where
  raw : String
  line : String
  payload : ParsedCommand
  elapsedMs : Int
  httpStatus : Option Int
  retry : Int

/-- The tuple `_structured_model_step` returns: raw text, derived
protocol line, payload, elapsed ms, request mode (= stage), HTTP
status, retry ordinal, fallback reason. -/
structure StepResult where
  raw : String
  dsl : String
  payload : NormPayload
  elapsedMs : Int
  requestMode : String
  httpStatus : Option Int
  retry : Int
  fallbackReason : Option String

/-- `to_json_dict` of a parsed command, as the JSON-ish payload the
fallback path reports. -/
def valueToJVal : Value → JVal
  | .vStr s => .jStr s
  | .vBool b => .jBool b
  | .vInt n => .jInt n
  | .vFloat lit => .jNum lit

/-- View a codec record as a normalized payload (the fallback path
returns `parse_dsl(...).to_json_dict()`). -/
def toNormPayload (r : ParsedCommand) : NormPayload :=
  ⟨r.op, r.target, r.count, r.params.map (fun kv => (kv.1, valueToJVal kv.2))⟩

/-- `_structured_model_step` from `relay.py`, with each stage's
chat-and-parse round abstracted as its outcome (`schemaAttempt`: the
schema-constrained call; `jsonAttempt`: the plain `format="json"`
retry; `noSchemaAttempt`: the single permissive-schema call of the
`use_schema=False` path; `dslFallback`: the `_dsl_model_step` guard
run).  Prompt construction and the message-size guard precede these
calls and are not modelled. -/
def _structured_model_step
    (schemaAttempt jsonAttempt noSchemaAttempt : Except RelayErr ParsedAttempt)
    (dslFallback : Except RelayErr DslStepResult)
    (useSchema strict fallbackEnabled : Bool) : Except RelayErr StepResult :=
  if useSchema then
    match schemaAttempt with
    | .ok a =>
        .ok ⟨a.raw, a.dsl, a.payload, a.elapsedMs, "structured-schema",
          some a.httpStatus, 0, none⟩
    | .error schemaErr =>
        let reason := "schema-failed:" ++ schemaErr.message
        let decision := decide_structured_recovery true false strict fallbackEnabled
        if decision = "fail-no-fallback" then
          .error
            { message := "structured schema stage failed: " ++ schemaErr.message
              httpStatus := schemaErr.httpStatus
              rawResponse := schemaErr.rawResponse
              stage := some "structured-schema" }
        else
          match jsonAttempt with
          | .ok a =>
              .ok ⟨a.raw, a.dsl, a.payload, a.elapsedMs, "structured-json",
                some a.httpStatus, 1, some reason⟩
          | .error jsonErr =>
              if strict then
                .error (_format_structured_failure "structured-json" jsonErr)
              else if ¬ fallbackEnabled then
                let wrapped := _format_structured_failure "structured-json" jsonErr
                .error
                  { message := wrapped.message ++ "; automatic fallback disabled"
                    httpStatus := wrapped.httpStatus
                    rawResponse := wrapped.rawResponse
                    stage := wrapped.stage }
              else
                match dslFallback with
                | .ok d =>
                    .ok ⟨d.raw, d.line, toNormPayload d.payload, d.elapsedMs,
                      "fallback-dsl", d.httpStatus, d.retry,
                      some (reason ++ ";json-failed:" ++ jsonErr.message)⟩
                | .error e => .error e
  else
    match noSchemaAttempt with
    | .ok a =>
        .ok ⟨a.raw, a.dsl, a.payload, a.elapsedMs, "structured-json",
          some a.httpStatus, 0, none⟩
    | .error e => .error e

/-- Values of the transcript-record dict (heterogeneous; `timeout_s`
and `keep_alive_s` are Python floats, carried as opaque integral
seconds since no theorem inspects them numerically). -/
inductive TVal where
  | tStr (s : String)
  | tInt (n : Int)
  | tOptStr (o : Option String)
  | tOptInt (o : Option Int)
  | tPayload (p : Option NormPayload)
  | tFields (f : Option (List String))

/-- `build_transcript_record` from `relay.py`.  The dict literal of
the source, in source order; `ts` (the `datetime.now` stamp) is the
single impure input, passed in. -/
def build_transcript_record (ts side model mode : String) (request_mode : String)
    (raw : String) (parsed : Option NormPayload) (dsl : Option String)
    (error : Option String) (retry : Int) (elapsed_ms : Int) (timeout_s : Int)
    (keep_alive_s : Option Int) (request_id : Int) (stage : String)
    (http_status : Option Int) (fallback_reason : Option String)
    (invalid_fields : Option (List String)) (raw_json_text : Option String) :
    List (String × TVal) :=
  [("ts", .tStr ts),
   ("request_id", .tInt request_id),
   ("side", .tStr side),
   ("model", .tStr model),
   ("mode", .tStr mode),
   ("stage", .tStr stage),
   ("request_mode", .tStr request_mode),
   ("http_status", .tOptInt http_status),
   ("raw", .tStr raw),
   ("parsed", .tPayload parsed),
   ("dsl", .tOptStr dsl),
   ("error", .tOptStr error),
   ("retry", .tInt retry),
   ("elapsed_ms", .tInt elapsed_ms),
   ("timeout_s", .tInt timeout_s),
   ("keep_alive_s", .tOptInt keep_alive_s),
   ("fallback_reason", .tOptStr fallback_reason),
   ("invalid_fields", .tFields invalid_fields),
   ("raw_json_text", .tOptStr raw_json_text)]

/-! ## Claim C2: negotiation fallback matrix -/

/-- C2: the pure decision function maps (schema failed, json ok) to
`retry-json` (for either strictness), (both failed, strict) to
`fail-strict` and (both failed, lenient, fallback on) to
`fallback-dsl`; and the structured step reports accordingly: a failed
schema call followed by a successful plain-JSON call yields stage
`structured-json`, retry 1 and a non-null fallback reason; both
failing under strict raises a terminal failure whose value never
consults the protocol-line stage; both failing under `strict=false`
with fallback enabled falls through to the protocol-line stage and
reports `fallback-dsl` on its success. -/
theorem C2_fallback_matrix :
    (∀ s : Bool, decide_structured_recovery true false s true = "retry-json") ∧
    decide_structured_recovery true true true true = "fail-strict" ∧
    decide_structured_recovery true true false true = "fallback-dsl" ∧
    (∀ (se : RelayErr) (a : ParsedAttempt) (ns : Except RelayErr ParsedAttempt)
        (d : Except RelayErr DslStepResult) (strict : Bool),
      _structured_model_step (.error se) (.ok a) ns d true strict true
        = .ok ⟨a.raw, a.dsl, a.payload, a.elapsedMs, "structured-json",
            some a.httpStatus, 1, some ("schema-failed:" ++ se.message)⟩) ∧
    (∀ (se je : RelayErr) (ns : Except RelayErr ParsedAttempt)
        (d : Except RelayErr DslStepResult),
      _structured_model_step (.error se) (.error je) ns d true true true
        = .error (_format_structured_failure "structured-json" je)) ∧
    (∀ (se je : RelayErr) (ns : Except RelayErr ParsedAttempt) (dres : DslStepResult),
      _structured_model_step (.error se) (.error je) ns (.ok dres) true false true
        = .ok ⟨dres.raw, dres.line, toNormPayload dres.payload, dres.elapsedMs,
            "fallback-dsl", dres.httpStatus, dres.retry,
            some ("schema-failed:" ++ se.message ++ ";json-failed:" ++ je.message)⟩) :=
  ⟨fun s => by cases s <;> rfl, rfl, rfl,
   fun _ _ _ _ strict => by cases strict <;> rfl,
   fun _ _ _ _ => rfl,
   fun _ _ _ _ => rfl⟩

/-! ## Claim C3: no-repeat suppression (absent from the code) -/

/-- C3 (code bug): the repeat-suppression behavior that the spec and
the test suite (`no_repeat=...`, `repeat_prevented`,
`repeats_prevented`, the "Do not repeat the previous line; advance the
workflow." re-prompt in `tests/test_relay.py`) require does not exist
in `relay.py`.  The transcript record has no `repeat_prevented` key,
and a structured response byte-identical to the incoming accepted
record (`gen txt` echoed back) is accepted immediately with retry 0
and no amended re-prompt — the step consumes exactly its single
attempt, whatever the strictness and fallback settings. -/
theorem C3_no_repeat_suppression_missing :
    (∀ (ts side model mode request_mode raw : String) (parsed : Option NormPayload)
        (dsl error : Option String) (retry elapsed_ms timeout_s : Int)
        (keep_alive_s : Option Int) (request_id : Int) (stage : String)
        (http_status : Option Int) (fallback_reason : Option String)
        (invalid_fields : Option (List String)) (raw_json_text : Option String),
      ¬ ("repeat_prevented" ∈ (build_transcript_record ts side model mode request_mode
        raw parsed dsl error retry elapsed_ms timeout_s keep_alive_s request_id stage
        http_status fallback_reason invalid_fields raw_json_text).map Prod.fst)) ∧
    (∀ (sa ja : Except RelayErr ParsedAttempt) (d : Except RelayErr DslStepResult)
        (strict fallbackEnabled : Bool),
      _structured_model_step sa ja
        (.ok ⟨"\x7b\"op\":\"gen\",\"target\":\"txt\"\x7d", "gen txt",
          ⟨"gen", "txt", 1, []⟩, 5, 200⟩) d false strict fallbackEnabled
        = .ok ⟨"\x7b\"op\":\"gen\",\"target\":\"txt\"\x7d", "gen txt",
            ⟨"gen", "txt", 1, []⟩, 5, "structured-json", some 200, 0, none⟩) :=
  ⟨fun ts side model mode request_mode raw parsed dsl error retry elapsed_ms timeout_s
      keep_alive_s request_id stage http_status fallback_reason invalid_fields
      raw_json_text => by
    rw [show (build_transcript_record ts side model mode request_mode raw parsed dsl
        error retry elapsed_ms timeout_s keep_alive_s request_id stage http_status
        fallback_reason invalid_fields raw_json_text).map Prod.fst
        = ["ts", "request_id", "side", "model", "mode", "stage", "request_mode",
           "http_status", "raw", "parsed", "dsl", "error", "retry", "elapsed_ms",
           "timeout_s", "keep_alive_s", "fallback_reason", "invalid_fields",
           "raw_json_text"] from rfl]
    decide,
   fun _ _ _ _ _ => rfl⟩

/-! ## Claim C7: the gen/script conditional rule -/

/-- The `RelayError` raised when `params.text` is missing or not a
string (`relay.py`). -/
def genScriptTextRequiredErr (raw : String) : RelayErr :=
  { message := "structured relay validation failed: field params.text is required string when op='gen' and target='script'; suggested fix: include generated script in params.text (not prompt)"
    rawResponse := some raw
    reason := some "params"
    stage := some "structured-validation" }

/-- The `RelayError` raised when `params.prompt` is present
(`relay.py`). -/
def genScriptPromptErr (raw : String) : RelayErr :=
  { message := "structured relay validation failed: field params.prompt is not allowed when op='gen' and target='script'; suggested fix: emit script in params.text"
    rawResponse := some raw
    reason := some "params"
    stage := some "structured-validation" }

/-- The `RelayError` raised when `params.text` is not a parseable
script (`relay.py`). -/
def genScriptBadScriptErr (raw e : String) : RelayErr :=
  { message := "structured relay validation failed: params.text must be a valid multi-line ChoomLang script (" ++ e ++ "); suggested fix: emit parseable script lines in params.text"
    rawResponse := some raw
    reason := some "params"
    stage := some "structured-validation" }

/-- C7 counterexample: the conditional rule is keyed on the canonical
op `gen`, not on `"generate"` as the spec says: a payload with
`op="generate"`, `target="script"` and a `prompt` parameter (and no
`text`) is *accepted* by `parse_structured_reply` when unknown ops are
allowed — the gen/script rule is skipped entirely (and under strict
ops such a payload is rejected as an unknown op, not by the script
rule). -/
theorem C7_gen_script_counterexample :
    parse_structured_reply "raw" (.jObj [("op", .jStr "generate"),
        ("target", .jStr "script"), ("params", .jObj [("prompt", .jStr "x")])]) false true
      = .ok (⟨"generate", "script", 1, [("prompt", .jStr "x")]⟩,
          "generate script prompt=x") := rfl

/-- Reduction of `validate_payload` on a well-shaped payload with a
symbolic op, target `script` and symbolic params: only the two
strict-set checks remain. -/
theorem validate_script_shape (op : String) (params : List (String × JVal)) :
    validate_payload [("op", .jStr op), ("target", .jStr "script"),
        ("count", .jInt 1), ("params", .jObj params)] true true
      = if true = true ∧ ¬ (normalize_op op ∈ CANONICAL_OPS) then
          .error ("invalid field op=" ++ pyReprStr op ++ ": unknown canonical op")
        else if true = true ∧ ¬ (("script" : String) ∈ CANONICAL_TARGETS) then
          .error ("invalid field target=" ++ pyReprStr "script" ++ ": unknown canonical target")
        else .ok () := rfl

/-- Validation passes whenever the op normalizes to `gen` and the
target is `script`. -/
theorem validate_script_ok (op : String) (params : List (String × JVal))
    (hop : normalize_op op = "gen") :
    validate_payload [("op", .jStr op), ("target", .jStr "script"),
        ("count", .jInt 1), ("params", .jObj params)] true true = .ok () :=
  (validate_script_shape op params).trans (by
    rw [if_neg (fun hcon => hcon.2 (by rw [hop]; decide)),
        if_neg (fun hcon => hcon.2 (by decide))])

/-- Reduction of `parse_structured_reply` on the op/target/params
payload: everything up to the validation call is forced. -/
theorem psr_script_shape (raw op : String) (params : List (String × JVal)) :
    parse_structured_reply raw (.jObj [("op", .jStr op), ("target", .jStr "script"),
        ("params", .jObj params)])
      = (match validate_payload [("op", .jStr op), ("target", .jStr "script"),
            ("count", .jInt 1), ("params", .jObj params)] true true with
         | .error message => .error (structuredValidationError raw (.jStr op) message)
         | .ok _ => psrNormalized raw [("op", .jStr op), ("target", .jStr "script"),
             ("params", .jObj params)]) := rfl

/-- Reduction of the validated body at target `script`. -/
theorem psrNormalized_script (raw op : String) (params : List (String × JVal)) :
    psrNormalized raw [("op", .jStr op), ("target", .jStr "script"),
        ("params", .jObj params)]
      = if normalize_op op = "gen" ∧ ("script" : String) = "script" then
          psrGenScript raw (normalize_op op) "script" 1 params
        else psrFinish (normalize_op op) "script" 1 params := rfl

/-- `parse_structured_reply` reaches the gen/script conditional rule
for every op that normalizes to `gen` — the canonical name or an
alias such as `jack`. -/
theorem parse_structured_reply_gen_script (raw op : String) (params : List (String × JVal))
    (hop : normalize_op op = "gen") :
    parse_structured_reply raw (.jObj [("op", .jStr op), ("target", .jStr "script"),
        ("params", .jObj params)])
      = psrGenScript raw "gen" "script" 1 params := by
  rw [psr_script_shape, validate_script_ok op params hop]
  show psrNormalized raw [("op", .jStr op), ("target", .jStr "script"),
      ("params", .jObj params)] = _
  have hcond : normalize_op op = "gen" ∧ ("script" : String) = "script" := ⟨hop, rfl⟩
  rw [psrNormalized_script, if_pos hcond, hop]

/-- Case reduction of the script rule when `params.text` is a
string. -/
theorem psrGenScript_textStr (raw : String) (params : List (String × JVal)) (s : String)
    (ht : jLookup params "text" = some (.jStr s)) :
    psrGenScript raw "gen" "script" 1 params
      = if (jLookup params "prompt").isSome then .error (genScriptPromptErr raw)
        else
          match parse_script_text s with
          | .error e => .error (genScriptBadScriptErr raw e)
          | .ok _ => psrFinish "gen" "script" 1 params := by
  unfold psrGenScript
  rw [ht]
  rfl

/-- C7 (amended): the conditional rule is keyed on the canonical op
`gen` (the spec's `"generate"` is not the canonical name): for every
payload whose op normalizes to `gen` — the literal `gen` or an alias
such as `jack` — with target `script`, `parse_structured_reply`
requires a string `text` parameter (rejecting its absence or a
non-string value with a params-tagged error), rejects any payload
containing a `prompt` parameter, requires `text` to be a
newline-separated sequence of lines each parseable by `parse_dsl`
(via `parse_script_text`), and acceptance implies all three conditions
held; and `canonical_json_schema` (both modes) mirrors the same rule
in its single `allOf` conditional, keyed on `"const": "gen"` and
`"const": "script"`, requiring a string `text` parameter and
forbidding `prompt`. -/
theorem C7_gen_script_rule (raw op : String) (params : List (String × JVal))
    (hop : normalize_op op = "gen") :
    ((∀ v, jLookup params "text" = some v → ∀ s, v ≠ .jStr s) →
      parse_structured_reply raw (.jObj [("op", .jStr op), ("target", .jStr "script"),
        ("params", .jObj params)]) = .error (genScriptTextRequiredErr raw)) ∧
    (∀ s, jLookup params "text" = some (.jStr s) → (jLookup params "prompt").isSome →
      parse_structured_reply raw (.jObj [("op", .jStr op), ("target", .jStr "script"),
        ("params", .jObj params)]) = .error (genScriptPromptErr raw)) ∧
    (∀ s e, jLookup params "text" = some (.jStr s) → jLookup params "prompt" = none →
      parse_script_text s = .error e →
      parse_structured_reply raw (.jObj [("op", .jStr op), ("target", .jStr "script"),
        ("params", .jObj params)]) = .error (genScriptBadScriptErr raw e)) ∧
    (∀ p d, parse_structured_reply raw (.jObj [("op", .jStr op),
        ("target", .jStr "script"), ("params", .jObj params)]) = .ok (p, d) →
      ∃ s rows, jLookup params "text" = some (.jStr s) ∧
        jLookup params "prompt" = none ∧ parse_script_text s = .ok rows) ∧
    (∀ mode ∈ (["strict", "permissive"] : List String), ∃ schema : JVal,
      canonical_json_schema mode = .ok schema ∧
      jPath schema ["allOf"] = some (.jArr [genScriptSchemaConditional])) ∧
    jPath genScriptSchemaConditional ["if", "properties", "op", "const"]
      = some (.jStr "gen") ∧
    jPath genScriptSchemaConditional ["if", "properties", "target", "const"]
      = some (.jStr "script") ∧
    jPath genScriptSchemaConditional ["if", "required"]
      = some (.jArr [.jStr "op", .jStr "target"]) ∧
    jPath genScriptSchemaConditional ["then", "properties", "params", "required"]
      = some (.jArr [.jStr "text"]) ∧
    jPath genScriptSchemaConditional
        ["then", "properties", "params", "properties", "text", "type"]
      = some (.jStr "string") ∧
    jPath genScriptSchemaConditional ["then", "properties", "params", "not"]
      = some (.jObj [("required", .jArr [.jStr "prompt"])]) := by
  refine ⟨?_, ?_, ?_, ?_, ?_, rfl, rfl, rfl, rfl, rfl, rfl⟩
  · intro h
    rw [parse_structured_reply_gen_script raw op params hop]
    unfold psrGenScript
    cases ht : jLookup params "text" with
    | none => rfl
    | some v =>
        cases v with
        | jStr s => exact absurd rfl (h _ ht s)
        | jNull => rfl
        | jBool b => rfl
        | jInt n => rfl
        | jNum l => rfl
        | jArr xs => rfl
        | jObj kvs => rfl
  · intro s ht hp
    rw [parse_structured_reply_gen_script raw op params hop,
        psrGenScript_textStr raw params s ht, if_pos hp]
  · intro s e ht hp hs
    rw [parse_structured_reply_gen_script raw op params hop,
        psrGenScript_textStr raw params s ht, if_neg (by simp [hp]), hs]
  · intro p d h
    rw [parse_structured_reply_gen_script raw op params hop] at h
    cases ht : jLookup params "text" with
    | none =>
        unfold psrGenScript at h
        rw [ht] at h
        exact absurd h (by simp)
    | some v =>
        cases v with
        | jStr s =>
            rw [psrGenScript_textStr raw params s ht] at h
            by_cases hp : (jLookup params "prompt").isSome
            · rw [if_pos hp] at h
              exact absurd h (by simp)
            · rw [if_neg hp] at h
              cases hs : parse_script_text s with
              | error e =>
                  rw [hs] at h
                  exact absurd h (by simp)
              | ok rows =>
                  exact ⟨s, rows, rfl, by simpa using hp, hs⟩
        | jNull => unfold psrGenScript at h; rw [ht] at h; exact absurd h (by simp)
        | jBool b => unfold psrGenScript at h; rw [ht] at h; exact absurd h (by simp)
        | jInt n => unfold psrGenScript at h; rw [ht] at h; exact absurd h (by simp)
        | jNum l => unfold psrGenScript at h; rw [ht] at h; exact absurd h (by simp)
        | jArr xs => unfold psrGenScript at h; rw [ht] at h; exact absurd h (by simp)
        | jObj kvs => unfold psrGenScript at h; rw [ht] at h; exact absurd h (by simp)
  · intro mode hm
    rcases (by simpa using hm : mode = "strict" ∨ mode = "permissive") with rfl | rfl
    · exact ⟨_, rfl, rfl⟩
    · exact ⟨_, rfl, rfl⟩

/-- Witness for C7 (amended) at concrete payloads: the alias op
`jack` (which normalizes to `gen`) reaches the script rule — the
missing-text and forbidden-prompt vectors — and the strict schema
carries the conditional. -/
theorem C7_gen_script_rule_witness :
    parse_structured_reply "r1" (.jObj [("op", .jStr "jack"), ("target", .jStr "script"),
        ("params", .jObj [])]) = .error (genScriptTextRequiredErr "r1") ∧
    parse_structured_reply "r2" (.jObj [("op", .jStr "jack"), ("target", .jStr "script"),
        ("params", .jObj [("text", .jStr "gen txt prompt=ok"), ("prompt", .jStr "bad")])])
      = .error (genScriptPromptErr "r2") ∧
    (∃ schema : JVal, canonical_json_schema "strict" = .ok schema ∧
      jPath schema ["allOf"] = some (.jArr [genScriptSchemaConditional])) :=
  ⟨(C7_gen_script_rule "r1" "jack" [] rfl).1
      (fun v hv => absurd hv (by simp [jLookup])),
   (C7_gen_script_rule "r2" "jack"
      [("text", .jStr "gen txt prompt=ok"), ("prompt", .jStr "bad")] rfl).2.1
      "gen txt prompt=ok" rfl (by rfl),
   (C7_gen_script_rule "r1" "jack" [] rfl).2.2.2.2.1 "strict" (by simp)⟩

/-! ## Substring reasoning for the diagnostic messages -/

theorem toList_append (s t : String) : (s ++ t).toList = s.toList ++ t.toList := rfl

theorem infix_append_left {p A : List Char} (B : List Char) (h : p <:+: A) :
    p <:+: A ++ B := by
  obtain ⟨s, t, rfl⟩ := h
  exact ⟨s, t ++ B, by simp⟩

theorem infix_append_right {p B : List Char} (A : List Char) (h : p <:+: B) :
    p <:+: A ++ B := by
  obtain ⟨s, t, rfl⟩ := h
  exact ⟨A ++ s, t, by simp⟩

theorem infix_middle (A opL B : List Char) : opL <:+: A ++ (opL ++ B) :=
  ⟨A, B, by simp⟩

theorem prefix_append_cases {p A B : List Char} (h : p <+: A ++ B) :
    p <+: A ∨ ∃ p₂, p = A ++ p₂ ∧ p₂ <+: B := by
  obtain ⟨t, ht⟩ := h
  rcases List.append_eq_append_iff.mp ht with ⟨a', ha1, _⟩ | ⟨c', hc1, hc2⟩
  · exact Or.inl ⟨a', ha1.symm⟩
  · exact Or.inr ⟨c', hc1, ⟨t, hc2.symm⟩⟩

theorem infix_append_cases : ∀ (A p B : List Char), p <:+: A ++ B →
    p <:+: A ∨ p <:+: B ∨
      ∃ p₁ p₂, p = p₁ ++ p₂ ∧ p₁ ≠ [] ∧ p₂ ≠ [] ∧ p₁ <:+ A ∧ p₂ <+: B
  | [], p, B, h => Or.inr (Or.inl (by simpa using h))
  | a :: A', p, B, h => by
      rcases List.infix_cons_iff.mp (by simpa using h) with hpre | htail
      · rcases prefix_append_cases (p := p) (A := a :: A') (B := B) hpre with h1 | ⟨p₂, hpe, hp2⟩
        · exact Or.inl h1.isInfix
        · by_cases hp2e : p₂ = []
          · subst hp2e
            exact Or.inl (by rw [hpe]; simp)
          · exact Or.inr (Or.inr ⟨a :: A', p₂, hpe, by simp, hp2e,
              List.suffix_refl _, hp2⟩)
      · rcases infix_append_cases A' p B htail with h1 | h2 | ⟨p₁, p₂, hpe, h1ne, h2ne, hsuf, hpre'⟩
        · exact Or.inl (List.infix_cons h1)
        · exact Or.inr (Or.inl h2)
        · refine Or.inr (Or.inr ⟨p₁, p₂, hpe, h1ne, h2ne, ?_, hpre'⟩)
          obtain ⟨t, ht⟩ := hsuf
          exact ⟨a :: t, by simp [← ht]⟩

theorem head?_of_pre {p B : List Char} (h : p <+: B) (hne : p ≠ []) :
    p.head? = B.head? := by
  obtain ⟨t, rfl⟩ := h
  cases p with
  | nil => exact absurd rfl hne
  | cons c cs => rfl

theorem getLast?_of_suffix {p A : List Char} (h : p <:+ A) (hne : p ≠ []) :
    p.getLast? = A.getLast? := by
  obtain ⟨t, rfl⟩ := h
  rw [List.getLast?_append_of_ne_nil t hne]

/-- A pattern free of `'` cannot occur in `A ++ (opL ++ B)` when it
occurs in none of the three segments, `A` ends with `'` and `B` starts
with `'` (the shape of the repr-quoted op inside a diagnostic
message). -/
theorem not_infix_wrap {p A opL B : List Char}
    (hA : ¬ (p <:+: A)) (hB : ¬ (p <:+: B)) (hop : ¬ (p <:+: opL))
    (hAlast : A.getLast? = some '\'') (hBhead : B.head? = some '\'')
    (hq : ¬ ('\'' ∈ p)) : ¬ (p <:+: A ++ (opL ++ B)) := by
  intro hinf
  rcases infix_append_cases A p (opL ++ B) hinf with hA' | h2 | ⟨p₁, p₂, hpe, hp1ne, _, hp1suf, _⟩
  · exact hA hA'
  · rcases infix_append_cases opL p B h2 with hop' | hB' | ⟨q₁, q₂, hqe, _, hq2ne, _, hq2pre⟩
    · exact hop hop'
    · exact hB hB'
    · have hh : q₂.head? = some '\'' := by
        rw [head?_of_pre hq2pre hq2ne, hBhead]
      apply hq
      rw [hqe]
      apply List.mem_append_right
      cases q₂ with
      | nil => exact absurd rfl hq2ne
      | cons c q =>
          have : c = '\'' := by simpa using hh
          rw [this] at *
          exact List.mem_cons_self _ _
  · have hh : p₁.getLast? = some '\'' := by
      rw [getLast?_of_suffix hp1suf hp1ne, hAlast]
    apply hq
    rw [hpe]
    exact List.mem_append_left _ (List.mem_of_mem_getLast? hh)

/-- Reduction of `validate_payload` on a well-shaped payload with a
symbolic op and target `txt`: only the two strict-set checks remain. -/
theorem validate_unknown_shape (op : String) :
    validate_payload [("op", .jStr op), ("target", .jStr "txt"),
        ("count", .jInt 1), ("params", .jObj [])] true true
      = if true = true ∧ ¬ (normalize_op op ∈ CANONICAL_OPS) then
          .error ("invalid field op=" ++ pyReprStr op ++ ": unknown canonical op")
        else if true = true ∧ ¬ (("txt" : String) ∈ CANONICAL_TARGETS) then
          .error ("invalid field target=" ++ pyReprStr "txt" ++ ": unknown canonical target")
        else .ok () := rfl

/-- An unknown op (under strict ops) fails validation with the
op-naming message. -/
theorem validate_unknown_op (op : String)
    (h : ¬ (normalize_op op ∈ CANONICAL_OPS)) :
    validate_payload [("op", .jStr op), ("target", .jStr "txt"),
        ("count", .jInt 1), ("params", .jObj [])] true true
      = .error ("invalid field op=" ++ pyReprStr op ++ ": unknown canonical op") :=
  (validate_unknown_shape op).trans (if_pos ⟨rfl, h⟩)

/-- Reduction of `parse_structured_reply` on the two-field payload:
everything up to the validation call is forced. -/
theorem psr_unknown_shape (raw op : String) :
    parse_structured_reply raw (.jObj [("op", .jStr op), ("target", .jStr "txt")])
      = (match validate_payload [("op", .jStr op), ("target", .jStr "txt"),
            ("count", .jInt 1), ("params", .jObj [])] true true with
         | .error message => .error (structuredValidationError raw (.jStr op) message)
         | .ok _ => psrNormalized raw [("op", .jStr op), ("target", .jStr "txt")]) := rfl

/-- `parse_structured_reply` on an unknown op returns the diagnostic
`RelayError` built by the validation-failure handler. -/
theorem psr_unknown_op (raw op : String)
    (h : ¬ (normalize_op op ∈ CANONICAL_OPS)) :
    parse_structured_reply raw (.jObj [("op", .jStr op), ("target", .jStr "txt")])
      = .error (structuredValidationError raw (.jStr op)
          ("invalid field op=" ++ pyReprStr op ++ ": unknown canonical op")) := by
  rw [psr_unknown_shape, validate_unknown_op op h]

/-- The unknown-op message splits around the repr-quoted op. -/
theorem unknown_op_msg_split (op : String) :
    ("invalid field op=" ++ pyReprStr op ++ ": unknown canonical op").toList
      = "invalid field op='".toList ++ (op.toList ++ "': unknown canonical op".toList) := by
  rw [show ("invalid field op='".toList : List Char)
        = "invalid field op=".toList ++ "'".toList from rfl,
      show ("': unknown canonical op".toList : List Char)
        = "'".toList ++ ": unknown canonical op".toList from rfl]
  simp only [pyReprStr, toList_append, List.append_assoc]

/-- The unknown-op message contains `field op` (in its fixed part). -/
theorem pyIn_field_op (op : String) :
    pyIn "field op" ("invalid field op=" ++ pyReprStr op ++ ": unknown canonical op")
      = true := by
  unfold pyIn
  apply decide_eq_true
  rw [unknown_op_msg_split]
  exact infix_append_left _ (by decide)

/-- On the unknown-op message the suggestion is the canonical-op
enumeration (the alias branch is off: the op is unknown even after
normalization). -/
theorem suggestion_unknown_op (op : String)
    (h : ¬ (normalize_op op ∈ CANONICAL_OPS)) :
    structuredSuggestion ("invalid field op=" ++ pyReprStr op ++ ": unknown canonical op")
        (.jStr op)
      = "use canonical ops " ++ pyListRepr (sortStrings CANONICAL_OPS) ++
          " or --allow-unknown-op; try --no-schema" := by
  unfold structuredSuggestion
  rw [pyIn_field_op op]
  show (if normalize_op op ∈ CANONICAL_OPS ∧ normalize_op op ≠ op then
      "alias detected: try canonical op '" ++ normalize_op op ++ "' or use --allow-unknown-op"
    else "use canonical ops " ++ pyListRepr (sortStrings CANONICAL_OPS) ++
        " or --allow-unknown-op; try --no-schema") = _
  exact if_neg (fun hc => h hc.1)

/-- On the unknown-op message the invalid-fields tag is exactly
`["op"]`, provided the op text itself does not smuggle in one of the
other field markers. -/
theorem invalidFields_unknown_op (op : String)
    (ht : ¬ ("field target".toList <:+: op.toList))
    (hc : ¬ ("field count".toList <:+: op.toList))
    (hp : ¬ ("field params".toList <:+: op.toList)) :
    invalidFieldsOf ("invalid field op=" ++ pyReprStr op ++ ": unknown canonical op")
      = ["op"] := by
  have key : ∀ pat : String, ¬ (pat.toList <:+: "invalid field op='".toList) →
      ¬ (pat.toList <:+: "': unknown canonical op".toList) →
      ¬ (pat.toList <:+: op.toList) → ('\'' ∉ pat.toList) →
      pyIn pat ("invalid field op=" ++ pyReprStr op ++ ": unknown canonical op") = false := by
    intro pat hA hB hop hq
    unfold pyIn
    apply decide_eq_false
    rw [unknown_op_msg_split]
    exact not_infix_wrap hA hB hop (by decide) (by decide) hq
  have h2 := key "field target" (by decide) (by decide) ht (by decide)
  have h3 := key "field count" (by decide) (by decide) hc (by decide)
  have h4 := key "field params" (by decide) (by decide) hp (by decide)
  unfold invalidFieldsOf
  rw [pyIn_field_op op, h2, h3, h4]
  decide

/-- C6: strict validation messages.  For every payload whose op is
unknown under strict mode (here: a structured reply with symbolic op
and canonical target, the op text not containing another field
marker), `parse_structured_reply` fails with an error whose message
names the offending op and enumerates the canonical op set, and which
is field-tagged with `op` (reason) and a stage, not a bare message. -/
theorem C6_strict_unknown_op (raw op : String)
    (hunknown : ¬ (normalize_op op ∈ CANONICAL_OPS))
    (ht : ¬ ("field target".toList <:+: op.toList))
    (hc : ¬ ("field count".toList <:+: op.toList))
    (hp : ¬ ("field params".toList <:+: op.toList)) :
    ∃ e : RelayErr,
      parse_structured_reply raw (.jObj [("op", .jStr op), ("target", .jStr "txt")])
        = .error e ∧
      op.toList <:+: e.message.toList ∧
      "['classify', 'forward', 'gen', 'healthcheck', 'plan', 'summarize', 'toolcall']".toList
        <:+: e.message.toList ∧
      e.reason = some "op" ∧
      e.stage = some "structured-validation" := by
  refine ⟨structuredValidationError raw (.jStr op)
      ("invalid field op=" ++ pyReprStr op ++ ": unknown canonical op"),
    psr_unknown_op raw op hunknown, ?_, ?_, ?_, rfl⟩
  · show op.toList <:+:
      ("structured relay validation failed: " ++
        ("invalid field op=" ++ pyReprStr op ++ ": unknown canonical op") ++
        "; suggested fix: " ++
        structuredSuggestion
          ("invalid field op=" ++ pyReprStr op ++ ": unknown canonical op")
          (.jStr op)).toList
    simp only [toList_append]
    apply infix_append_left
    apply infix_append_left
    apply infix_append_right
    apply infix_append_left
    apply infix_append_right
    exact (show op.toList <:+: ("'".toList ++ op.toList) ++ "'".toList from
      infix_append_left _ (infix_append_right _ (List.infix_refl _)))
  · show "['classify', 'forward', 'gen', 'healthcheck', 'plan', 'summarize', 'toolcall']".toList
      <:+:
      ("structured relay validation failed: " ++
        ("invalid field op=" ++ pyReprStr op ++ ": unknown canonical op") ++
        "; suggested fix: " ++
        structuredSuggestion
          ("invalid field op=" ++ pyReprStr op ++ ": unknown canonical op")
          (.jStr op)).toList
    rw [suggestion_unknown_op op hunknown]
    simp only [toList_append]
    apply infix_append_right
    apply infix_append_left
    apply infix_append_right
    rw [show (pyListRepr (sortStrings CANONICAL_OPS)).toList
          = "['classify', 'forward', 'gen', 'healthcheck', 'plan', 'summarize', 'toolcall']".toList
        from rfl]
  · show (if invalidFieldsOf
        ("invalid field op=" ++ pyReprStr op ++ ": unknown canonical op") = []
      then none
      else some (joinComma (invalidFieldsOf
        ("invalid field op=" ++ pyReprStr op ++ ": unknown canonical op"))))
      = some "op"
    rw [invalidFields_unknown_op op ht hc hp]
    decide

/-- C6 witness: the unknown op `warez` at a canonical target. -/
theorem C6_strict_unknown_op_witness :
    ∃ e : RelayErr,
      parse_structured_reply "x" (.jObj [("op", .jStr "warez"), ("target", .jStr "txt")])
        = .error e ∧
      "warez".toList <:+: e.message.toList ∧
      "['classify', 'forward', 'gen', 'healthcheck', 'plan', 'summarize', 'toolcall']".toList
        <:+: e.message.toList ∧
      e.reason = some "op" ∧
      e.stage = some "structured-validation" :=
  C6_strict_unknown_op "x" "warez" (by decide) (by decide) (by decide) (by decide)

end ChoomLang
